import Mathlib

/-!
Verification development for the polymarket trading bot (15-minute signal
engine).  Each Python module of the bot is shallowly embedded as executable
Lean definitions: floats become `ℚ`, Unix timestamps become `Int`,
`Optional`/`None` becomes `Option`, and Python dicts become structures with
`Option` fields where the code reads keys with `.get`.  Stateful module-level
objects (price buffers, caches, order books, the trade ledger) become explicit
state values threaded through the functions that the code mutates them in.

Modules covered:
  * `src/apps/bot/src/utils/rtds_client.py`  → namespace `RtdsClient`
  * `src/apps/bot/src/ws_polymarket.py`      → namespace `WsPolymarket`
  * `src/apps/bot/src/signal_engine.py`      → namespace `SignalEngine`
  * `src/apps/bot/src/executor.py`           → namespace `Executor`
  * `src/apps/bot/src/settlement.py`         → namespace `Settlement`
  * `src/apps/bot/src/database.py`           → namespace `Settlement` (ledger)

A few constants the signal engine imports from `src.config`
(`MISPRICING_THRESHOLD`, `IMBALANCE_THRESHOLD`, `MOMENTUM_LOOKBACK`) are not
defined anywhere in the repository's files; they are carried as fields of an
explicit configuration record and, where a concrete value is needed, modelled
from the spec (see `SignalEngine.EngineConfig`).
-/

namespace PolymarketBot

/-- Python `a or b` for an optional number in a context expecting a number:
`None` and `0` are falsy, so they fall through to `b`. -/
def pyOrQ (a : Option ℚ) (b : ℚ) : ℚ :=
  match a with
  | some x => if x = 0 then b else x
  | none => b

/-- Python `a or b` for an optional string: `None` and `""` are falsy. -/
def pyOrStr (a : Option String) (b : String) : String :=
  match a with
  | some s => if s = "" then b else s
  | none => b

/-! ## Reference price stream client (`src/apps/bot/src/utils/rtds_client.py`)

The client keeps, per symbol, a rolling buffer of `(timestamp_ms, value)`
ticks (10-minute retention) and a start-price cache `timestamp_sec → value`.
We model the per-symbol state; the module holds one such state per symbol. -/

namespace RtdsClient

/-- `_START_PRICE_CACHE_MAX_AGE_SEC = 30 * 60`. -/
def startPriceCacheMaxAgeSec : Int := 30 * 60

/-- `_RECENT_WINDOW_SEC = 90`. -/
def recentWindowSec : Int := 90

/-- `_BUFFER_MS = 10 * 60 * 1000`. -/
def bufferMs : Int := 10 * 60 * 1000

/-- Per-symbol state of the RTDS client: the rolling tick buffer
(`_buffers[symbol]`, ascending `(timestamp_ms, value)` pairs) and the
start-price cache (`_start_price_caches[symbol]`, a dict
`timestamp_sec → value` modelled as an association list). -/
structure RtdsState where
  buffer : List (Int × ℚ)
  cache : List (Int × ℚ)
deriving Repr, DecidableEq

/-- Python dict read `cache.get(k)` on the association-list model. -/
def lookupCache : List (Int × ℚ) → Int → Option ℚ
  | [], _ => none
  | e :: rest, k => if e.1 = k then some e.2 else lookupCache rest k

/-- Python dict write `cache[k] = v`: replace an existing binding, else add. -/
def insertCache (cache : List (Int × ℚ)) (k : Int) (v : ℚ) : List (Int × ℚ) :=
  match cache with
  | [] => [(k, v)]
  | e :: rest => if e.1 = k then (k, v) :: rest else e :: insertCache rest k v

/-- The cache eviction in `_price_at_timestamp`: drop every key `k < cutoff`
(entries at exactly the cutoff survive). -/
def evictCache (cache : List (Int × ℚ)) (cutoff : Int) : List (Int × ℚ) :=
  cache.filter (fun e => !(e.1 < cutoff))

/-- The buffer scan `for t, v in buf: if t > ts_ms: break; last = v` —
the value of the last tick at or before `tsMs`, respecting the early break. -/
def lastAtOrBefore : List (Int × ℚ) → Int → Option ℚ → Option ℚ
  | [], _, acc => acc
  | e :: rest, tsMs, acc =>
    if e.1 > tsMs then acc else lastAtOrBefore rest tsMs (some e.2)

/-- `_price_at_timestamp(symbol, ts_unix_seconds)`: returns the looked-up
value and the updated per-symbol state.  A cache hit returns early without
touching the state; otherwise the buffer is scanned, a resolved value is
cached (with the recent-window fallback to the earliest buffered tick), and
cache keys older than 30 minutes are evicted. -/
def priceAtTimestamp (nowSec : Int) (st : RtdsState) (ts : Int) :
    Option ℚ × RtdsState :=
  if ts ≤ 0 then (none, st)
  else
    match lookupCache st.cache ts with
    | some v => (some v, st)
    | none =>
      match st.buffer with
      | [] => (none, st)
      | first :: _ =>
        let tsMs := ts * 1000
        let cutoff := nowSec - startPriceCacheMaxAgeSec
        match lastAtOrBefore st.buffer tsMs none with
        | some v =>
          (some v, { st with cache := evictCache (insertCache st.cache ts v) cutoff })
        | none =>
          if nowSec - ts ≤ recentWindowSec then
            let v := first.2
            (some v, { st with cache := evictCache (insertCache st.cache ts v) cutoff })
          else
            (none, { st with cache := evictCache st.cache cutoff })

lemma lookupCache_insert_self (cache : List (Int × ℚ)) (k : Int) (v : ℚ) :
    lookupCache (insertCache cache k v) k = some v := by
  induction cache with
  | nil => simp [insertCache, lookupCache]
  | cons e rest ih =>
    by_cases h : e.1 = k
    · simp [insertCache, h, lookupCache]
    · simp [insertCache, h, lookupCache, ih]

lemma lookupCache_insert_ne (cache : List (Int × ℚ)) (k k' : Int) (v : ℚ)
    (hne : k ≠ k') : lookupCache (insertCache cache k v) k' = lookupCache cache k' := by
  induction cache with
  | nil => simp [insertCache, lookupCache, hne]
  | cons e rest ih =>
    by_cases h : e.1 = k
    · have h' : e.1 ≠ k' := fun hh => hne (h ▸ hh)
      simp [insertCache, h, lookupCache, hne, h']
    · by_cases h' : e.1 = k'
      · have hkk : ¬ (k' = k) := fun hh => hne hh.symm
        simp [insertCache, h, lookupCache, h', hkk]
      · simp [insertCache, h, lookupCache, h', ih]

lemma lookupCache_evict_of_fresh (cache : List (Int × ℚ)) (cutoff k : Int)
    (hk : cutoff ≤ k) : lookupCache (evictCache cache cutoff) k = lookupCache cache k := by
  induction cache with
  | nil => simp [evictCache, lookupCache]
  | cons e rest ih =>
    by_cases hlt : e.1 < cutoff
    · have hke : e.1 ≠ k := by omega
      simp only [evictCache, List.filter_cons, hlt] at ih ⊢
      simpa [lookupCache, hke] using ih
    · simp only [evictCache, List.filter_cons, hlt] at ih ⊢
      by_cases hke : e.1 = k
      · simp [lookupCache, hke]
      · simpa [lookupCache, hke] using ih

/-- A cache hit returns the cached value and leaves the state untouched. -/
lemma priceAtTimestamp_of_cached (nowSec : Int) (st : RtdsState) (ts : Int)
    (v : ℚ) (hpos : 0 < ts) (hc : lookupCache st.cache ts = some v) :
    priceAtTimestamp nowSec st ts = (some v, st) := by
  have : ¬ ts ≤ 0 := by omega
  simp [priceAtTimestamp, this, hc]

/-- A call that resolves a value for a fresh timestamp leaves it in the cache. -/
lemma priceAtTimestamp_caches (nowSec : Int) (st : RtdsState) (ts : Int) (v : ℚ)
    (hpos : 0 < ts) (hfresh : nowSec - startPriceCacheMaxAgeSec ≤ ts)
    (hres : (priceAtTimestamp nowSec st ts).1 = some v) :
    lookupCache (priceAtTimestamp nowSec st ts).2.cache ts = some v := by
  have hnle : ¬ ts ≤ 0 := by omega
  unfold priceAtTimestamp at hres ⊢
  simp only [if_neg hnle] at hres ⊢
  cases hc : lookupCache st.cache ts with
  | some w =>
    simp only [hc] at hres ⊢
    simpa [hc] using hres
  | none =>
    simp only [hc] at hres ⊢
    cases hbuf : st.buffer with
    | nil => simp [hbuf] at hres
    | cons first rest =>
      simp only [hbuf] at hres ⊢
      cases hlast : lastAtOrBefore (first :: rest) (ts * 1000) none with
      | some w =>
        simp only [hlast] at hres ⊢
        have hw : w = v := by simpa using hres
        subst hw
        rw [lookupCache_evict_of_fresh _ _ _ hfresh, lookupCache_insert_self]
      | none =>
        simp only [hlast] at hres ⊢
        by_cases hrec : nowSec - ts ≤ recentWindowSec
        · rw [if_pos hrec] at hres ⊢
          have hw : first.2 = v := by simpa using hres
          rw [hw, lookupCache_evict_of_fresh _ _ _ hfresh, lookupCache_insert_self]
        · rw [if_neg hrec] at hres
          simp at hres

/-- Any call, for any other timestamp, preserves a fresh cache entry:
cache entries are evicted only when their key is older than the 30-minute
maximum age relative to the call's clock. -/
lemma priceAtTimestamp_preserves_fresh (nowSec : Int) (st : RtdsState)
    (ts' t : Int) (v : ℚ) (hc : lookupCache st.cache t = some v)
    (hfresh : nowSec - startPriceCacheMaxAgeSec ≤ t) :
    lookupCache (priceAtTimestamp nowSec st ts').2.cache t = some v := by
  unfold priceAtTimestamp
  by_cases h0 : ts' ≤ 0
  · simpa [h0] using hc
  · simp only [if_neg h0]
    cases hc' : lookupCache st.cache ts' with
    | some w => simpa using hc
    | none =>
      have hne : ts' ≠ t := fun h => by rw [h, hc] at hc'; cases hc'
      cases hbuf : st.buffer with
      | nil => simpa using hc
      | cons first rest =>
        cases hlast : lastAtOrBefore (first :: rest) (ts' * 1000) none with
        | some w =>
          simp only
          rw [lookupCache_evict_of_fresh _ _ _ hfresh,
            lookupCache_insert_ne _ _ _ _ hne, hc]
        | none =>
          by_cases hrec : nowSec - ts' ≤ recentWindowSec
          · simp only [if_pos hrec]
            rw [lookupCache_evict_of_fresh _ _ _ hfresh,
              lookupCache_insert_ne _ _ _ _ hne, hc]
          · simp only [if_neg hrec]
            rw [lookupCache_evict_of_fresh _ _ _ hfresh, hc]

/-- C6: the point-in-time price lookup is idempotent memoization.  Once a call
has resolved and cached a value `v` for timestamp `ts` (first conjunct), an
intervening call for any other timestamp `ts2` keeps the entry (cache entries
are evicted only when older than the 30-minute maximum age, second conjunct),
and a later call for the same `ts` returns exactly the cached `v` and changes
nothing — even if the underlying tick buffer has meanwhile been replaced by
arbitrary contents `buf` (third conjunct). -/
theorem priceAtTimestamp_memoized (now1 now2 now3 : Int) (st : RtdsState)
    (ts ts2 : Int) (v : ℚ)
    (hpos : 0 < ts)
    (hfresh1 : now1 - startPriceCacheMaxAgeSec ≤ ts)
    (hfresh2 : now2 - startPriceCacheMaxAgeSec ≤ ts)
    (hres : (priceAtTimestamp now1 st ts).1 = some v) :
    lookupCache (priceAtTimestamp now1 st ts).2.cache ts = some v ∧
    lookupCache (priceAtTimestamp now2 (priceAtTimestamp now1 st ts).2 ts2).2.cache ts
      = some v ∧
    ∀ buf : List (Int × ℚ),
      priceAtTimestamp now3
          { (priceAtTimestamp now2 (priceAtTimestamp now1 st ts).2 ts2).2 with
            buffer := buf } ts
        = (some v,
           { (priceAtTimestamp now2 (priceAtTimestamp now1 st ts).2 ts2).2 with
             buffer := buf }) := by
  have h1 := priceAtTimestamp_caches now1 st ts v hpos hfresh1 hres
  have h2 := priceAtTimestamp_preserves_fresh now2 (priceAtTimestamp now1 st ts).2
    ts2 ts v h1 hfresh2
  refine ⟨h1, h2, fun buf => ?_⟩
  exact priceAtTimestamp_of_cached now3 _ ts v hpos (by simpa using h2)

/-- Witness for C6 at a concrete state: a buffer holding a single tick
`(1 ms, 5)`, looking up timestamp 1000 s at clock 2000 s; the later call sees
an emptied buffer yet still returns the memoized 5. -/
theorem priceAtTimestamp_memoized_witness :
    lookupCache (priceAtTimestamp 2000 ⟨[(1, 5)], []⟩ 1000).2.cache 1000 = some 5 ∧
    lookupCache (priceAtTimestamp 2100 (priceAtTimestamp 2000 ⟨[(1, 5)], []⟩ 1000).2 1500).2.cache 1000
      = some 5 ∧
    ∀ buf : List (Int × ℚ),
      priceAtTimestamp 2200
          { (priceAtTimestamp 2100 (priceAtTimestamp 2000 ⟨[(1, 5)], []⟩ 1000).2 1500).2 with
            buffer := buf } 1000
        = (some 5,
           { (priceAtTimestamp 2100 (priceAtTimestamp 2000 ⟨[(1, 5)], []⟩ 1000).2 1500).2 with
             buffer := buf }) :=
  priceAtTimestamp_memoized 2000 2100 2200 ⟨[(1, 5)], []⟩ 1000 1500 5
    (by decide) (by decide) (by decide) rfl

end RtdsClient

/-! ## Generic insertion sort used to model Python `sorted(..., key=price)` -/

/-- Insert `x` into `l` before the first element `y` with `r x y`
(`r a b` reads "`a` may come before `b`"). -/
def insSorted {α : Type} (r : α → α → Bool) (x : α) : List α → List α
  | [] => [x]
  | y :: ys => if r x y then x :: y :: ys else y :: insSorted r x ys

/-- Insertion sort by the relation `r`. -/
def insSort {α : Type} (r : α → α → Bool) : List α → List α
  | [] => []
  | x :: xs => insSorted r x (insSort r xs)

lemma mem_insSorted {α : Type} (r : α → α → Bool) (x z : α) (l : List α) :
    z ∈ insSorted r x l ↔ z = x ∨ z ∈ l := by
  induction l with
  | nil => simp [insSorted]
  | cons y ys ih =>
    by_cases h : r x y
    · simp [insSorted, h]
    · simp only [insSorted, h, Bool.false_eq_true, if_false, List.mem_cons, ih]
      tauto

lemma pairwise_insSorted {α : Type} (r : α → α → Bool)
    (htot : ∀ a b, r a b = true ∨ r b a = true)
    (htrans : ∀ a b c, r a b = true → r b c = true → r a c = true)
    (x : α) (l : List α) (h : l.Pairwise (fun a b => r a b = true)) :
    (insSorted r x l).Pairwise (fun a b => r a b = true) := by
  induction l with
  | nil => simp [insSorted]
  | cons y ys ih =>
    rcases List.pairwise_cons.mp h with ⟨hy, hys⟩
    by_cases hxy : r x y
    · simp only [insSorted, if_pos hxy]
      refine List.pairwise_cons.mpr ⟨?_, h⟩
      intro z hz
      rcases List.mem_cons.mp hz with hzy | hzys
      · exact hzy ▸ hxy
      · exact htrans x y z hxy (hy z hzys)
    · have hstep : insSorted r x (y :: ys) = y :: insSorted r x ys := by
        simp only [insSorted]
        rw [if_neg hxy]
      rw [hstep]
      refine List.pairwise_cons.mpr ⟨?_, ih hys⟩
      intro z hz
      rcases (mem_insSorted r x z ys).mp hz with hzx | hzys
      · rcases htot x y with hh | hh
        · exact absurd hh hxy
        · rw [hzx]
          exact hh
      · exact hy z hzys

lemma pairwise_insSort {α : Type} (r : α → α → Bool)
    (htot : ∀ a b, r a b = true ∨ r b a = true)
    (htrans : ∀ a b c, r a b = true → r b c = true → r a c = true)
    (l : List α) : (insSort r l).Pairwise (fun a b => r a b = true) := by
  induction l with
  | nil => simp [insSort]
  | cons x xs ih => exact pairwise_insSorted r htot htrans x (insSort r xs) ih

/-! ## Order book stream client (`src/apps/bot/src/ws_polymarket.py`)

One `TokenBook` per subscribed instrument id.  `book` events (and REST
snapshots, which use the same construction) replace a book wholesale;
`price_change` events patch only `best_bid`/`best_ask`. -/

namespace WsPolymarket

/-- `_TOP_LEVELS = 5`. -/
def topLevels : Nat := 5

/-- `OrderLevel(price, size)`. -/
structure OrderLevel where
  price : ℚ
  size : ℚ
deriving Repr, DecidableEq

/-- `TokenBook`: per-instrument top-of-book state. -/
structure TokenBook where
  assetId : String
  bestBid : Option ℚ
  bestAsk : Option ℚ
  bids : List OrderLevel
  asks : List OrderLevel
  updatedAt : Int
deriving Repr, DecidableEq

/-- `_parse_levels`: keep raw `(price, size)` entries with both positive. -/
def parseLevels (raw : List (ℚ × ℚ)) : List OrderLevel :=
  (raw.filter (fun e => 0 < e.1 ∧ 0 < e.2)).map (fun e => ⟨e.1, e.2⟩)

/-- Sort bids descending by price (Python `sorted(key=price, reverse=True)`). -/
def sortBidsDesc (l : List OrderLevel) : List OrderLevel :=
  insSort (fun a b => b.price ≤ a.price) l

/-- Sort asks ascending by price (Python `sorted(key=price)`). -/
def sortAsksAsc (l : List OrderLevel) : List OrderLevel :=
  insSort (fun a b => a.price ≤ b.price) l

/-- `_order_book_levels`: ensure bids desc (best first), asks asc (best first). -/
def orderBookLevels (bids asks : List OrderLevel) :
    List OrderLevel × List OrderLevel :=
  (sortBidsDesc bids, sortAsksAsc asks)

/-- The `book`-event handler (`_on_message`, `event_type == "book"`) and the
REST snapshot `_fetch_book_snapshot` build a new book the same way: parse
levels, sort both sides, take `best` from `level[0]`, truncate to
`_TOP_LEVELS + 2` levels. -/
def bookFromRaw (assetId : String) (bidsRaw asksRaw : List (ℚ × ℚ))
    (nowTs : Int) : TokenBook :=
  let sorted := orderBookLevels (parseLevels bidsRaw) (parseLevels asksRaw)
  let bids := sorted.1
  let asks := sorted.2
  { assetId := assetId
    bestBid := bids.head?.map (fun l => l.price)
    bestAsk := asks.head?.map (fun l => l.price)
    bids := bids.take (topLevels + 2)
    asks := asks.take (topLevels + 2)
    updatedAt := nowTs }

/-- `float(pc.get("best_bid", 0)) or None`: a zero patches to `None`. -/
def floatOrNone (x : ℚ) : Option ℚ :=
  if x = 0 then none else some x

/-- The `price_change`-event handler: patch best bid/ask of an existing book
(leaving the level arrays untouched), or create a levels-less book when the
instrument has no book yet. -/
def applyPriceChange (existing : Option TokenBook) (assetId : String)
    (bestBid bestAsk : Option ℚ) (nowTs : Int) : TokenBook :=
  match existing with
  | some b =>
    { b with
      bestBid := match bestBid with | some x => some x | none => b.bestBid
      bestAsk := match bestAsk with | some x => some x | none => b.bestAsk
      updatedAt := nowTs }
  | none =>
    { assetId := assetId, bestBid := bestBid, bestAsk := bestAsk,
      bids := [], asks := [], updatedAt := nowTs }

/-- Bids non-increasing by price. -/
def bidsSorted (l : List OrderLevel) : Prop :=
  l.Pairwise (fun a b => b.price ≤ a.price)

/-- Asks non-decreasing by price. -/
def asksSorted (l : List OrderLevel) : Prop :=
  l.Pairwise (fun a b => a.price ≤ b.price)

lemma sortBidsDesc_sorted (l : List OrderLevel) : bidsSorted (sortBidsDesc l) := by
  have h := pairwise_insSort (fun a b : OrderLevel => decide (b.price ≤ a.price))
    (fun a b => by rcases le_total b.price a.price with h | h <;> simp [h])
    (fun a b c hab hbc => by
      simp only [decide_eq_true_eq] at hab hbc ⊢
      exact le_trans hbc hab) l
  exact h.imp (fun hab => by simpa using hab)

lemma sortAsksAsc_sorted (l : List OrderLevel) : asksSorted (sortAsksAsc l) := by
  have h := pairwise_insSort (fun a b : OrderLevel => decide (a.price ≤ b.price))
    (fun a b => by rcases le_total a.price b.price with h | h <;> simp [h])
    (fun a b c hab hbc => by
      simp only [decide_eq_true_eq] at hab hbc ⊢
      exact le_trans hab hbc) l
  exact h.imp (fun hab => by simpa using hab)

lemma head?_take {α : Type} (n : Nat) (hn : 0 < n) (l : List α) :
    (l.take n).head? = l.head? := by
  cases l with
  | nil => simp
  | cons x xs =>
    cases n with
    | zero => omega
    | succ m => simp

/-- C9 (amended): every book-replacing update (streamed `book` event or REST
snapshot) produces bids sorted non-increasing and asks sorted non-decreasing
by price, with `best_bid`/`best_ask` equal to the price of `level[0]` of the
stored side, or absent when that side is empty; a best-price-patching
`price_change` update leaves both level arrays (hence their sortedness)
untouched and sets the best prices from the patch — independently of the
stored levels. -/
theorem orderBook_invariant :
    (∀ (assetId : String) (bidsRaw asksRaw : List (ℚ × ℚ)) (nowTs : Int),
      bidsSorted (bookFromRaw assetId bidsRaw asksRaw nowTs).bids ∧
      asksSorted (bookFromRaw assetId bidsRaw asksRaw nowTs).asks ∧
      (bookFromRaw assetId bidsRaw asksRaw nowTs).bestBid
        = ((bookFromRaw assetId bidsRaw asksRaw nowTs).bids.head?.map (fun l => l.price)) ∧
      (bookFromRaw assetId bidsRaw asksRaw nowTs).bestAsk
        = ((bookFromRaw assetId bidsRaw asksRaw nowTs).asks.head?.map (fun l => l.price))) ∧
    (∀ (b : TokenBook) (assetId : String) (bb ba : Option ℚ) (nowTs : Int),
      (applyPriceChange (some b) assetId bb ba nowTs).bids = b.bids ∧
      (applyPriceChange (some b) assetId bb ba nowTs).asks = b.asks ∧
      (applyPriceChange (some b) assetId bb ba nowTs).bestBid
        = (match bb with | some x => some x | none => b.bestBid) ∧
      (applyPriceChange (some b) assetId bb ba nowTs).bestAsk
        = (match ba with | some x => some x | none => b.bestAsk)) := by
  constructor
  · intro assetId bidsRaw asksRaw nowTs
    refine ⟨?_, ?_, ?_, ?_⟩
    · exact List.Pairwise.sublist (List.take_sublist _ _)
        (sortBidsDesc_sorted (parseLevels bidsRaw))
    · exact List.Pairwise.sublist (List.take_sublist _ _)
        (sortAsksAsc_sorted (parseLevels asksRaw))
    · simp [bookFromRaw, orderBookLevels, head?_take (topLevels + 2) (by omega)]
    · simp [bookFromRaw, orderBookLevels, head?_take (topLevels + 2) (by omega)]
  · intro b assetId bb ba nowTs
    refine ⟨rfl, rfl, rfl, rfl⟩

/-- C9, counterexample to the claim as stated: a `price_change` patch sets
`best_ask` to 2 on a book whose only (sorted) ask level has price 1, so after
a best-price-patching update `best_ask` is NOT the price of `asks[0]`. -/
theorem priceChange_breaks_best_eq_head :
    (applyPriceChange
        (some (bookFromRaw "tok" [] [(1, 10)] 0)) "tok" none (some 2) 1).asks.head?.map
          (fun l => l.price) = some 1 ∧
    (applyPriceChange
        (some (bookFromRaw "tok" [] [(1, 10)] 0)) "tok" none (some 2) 1).bestAsk = some 2 ∧
    (applyPriceChange
        (some (bookFromRaw "tok" [] [(1, 10)] 0)) "tok" none (some 2) 1).bestAsk ≠
      (applyPriceChange
        (some (bookFromRaw "tok" [] [(1, 10)] 0)) "tok" none (some 2) 1).asks.head?.map
          (fun l => l.price) := by
  refine ⟨?_, rfl, ?_⟩
  · simp [applyPriceChange, bookFromRaw, orderBookLevels, parseLevels,
      sortAsksAsc, insSort, insSorted, topLevels]
  · intro h
    rw [show (applyPriceChange
        (some (bookFromRaw "tok" [] [(1, 10)] 0)) "tok" none (some 2) 1).asks.head?.map
          (fun l => l.price) = some 1 from by
        simp [applyPriceChange, bookFromRaw, orderBookLevels, parseLevels,
          sortAsksAsc, insSort, insSorted, topLevels]] at h
    have h2 : (some (2 : ℚ)) = some 1 := h
    have : (2 : ℚ) = 1 := Option.some.inj h2
    norm_num at this

/-! ### Reconnect backoff (`_run_loop` of both streaming clients)

Both loops sleep `delay` after a connection ends and then grow it by
`delay = min(delay * 1.5, 60)`.  The order-book client's `_on_open` resets the
global `_reconnect_delay` to the base; the RTDS client's `_on_open` does not
touch its (loop-local) `delay`. -/

/-- An observable event of a streaming client's reconnect loop: the socket
opened successfully, or the connection ended and the loop retries. -/
inductive ConnEvent where
  | opened
  | retry
deriving Repr, DecidableEq

/-- `_RECONNECT_DELAY = 5` (both clients). -/
def reconnectDelayBase : ℚ := 5

/-- `_MAX_RECONNECT_DELAY = 60` (both clients). -/
def maxReconnectDelay : ℚ := 60

/-- The growth step `delay = min(delay * 1.5, _MAX_RECONNECT_DELAY)`. -/
def backoffNext (d : ℚ) : ℚ := min (d * 1.5) maxReconnectDelay

/-- `ws_polymarket._run_loop`/`_on_open`: the delay after one loop event.
`_on_open` resets `_reconnect_delay` to the base. -/
def pmDelayStep (d : ℚ) : ConnEvent → ℚ
  | .opened => reconnectDelayBase
  | .retry => backoffNext d

/-- `rtds_client._run_loop`: the delay after one loop event.  The RTDS
`_on_open` does not touch the loop-local `delay`, so `opened` leaves it
unchanged. -/
def rtdsDelayStep (d : ℚ) : ConnEvent → ℚ
  | .opened => d
  | .retry => backoffNext d

/-- C8 (amended): across consecutive failed attempts both clients' delays are
monotonically non-decreasing from the base up to the ceiling; the order-book
client resets the delay to the base on a clean reconnect (successful open),
but the RTDS client's open event leaves its delay unchanged — the RTDS loop
never resets its backoff. -/
theorem reconnect_backoff_behaviour (d : ℚ)
    (hbase : reconnectDelayBase ≤ d) (hceil : d ≤ maxReconnectDelay) :
    (d ≤ backoffNext d ∧ backoffNext d ≤ maxReconnectDelay) ∧
    pmDelayStep d .opened = reconnectDelayBase ∧
    rtdsDelayStep d .opened = d := by
  refine ⟨⟨?_, ?_⟩, rfl, rfl⟩
  · have h0 : (0 : ℚ) ≤ d := le_trans (by norm_num [reconnectDelayBase]) hbase
    have h1 : d ≤ d * 1.5 := by nlinarith
    exact le_min h1 hceil
  · exact min_le_right _ _

/-- Witness for C8's amended theorem at the base delay. -/
theorem reconnect_backoff_behaviour_witness :
    ((5 : ℚ) ≤ backoffNext 5 ∧ backoffNext 5 ≤ maxReconnectDelay) ∧
    pmDelayStep 5 .opened = reconnectDelayBase ∧
    rtdsDelayStep 5 .opened = 5 :=
  reconnect_backoff_behaviour 5 (by norm_num [reconnectDelayBase])
    (by norm_num [maxReconnectDelay])

/-- C8, counterexample to the claim as stated: in the RTDS client's loop, one
failed attempt grows the delay to 7.5; a subsequent clean reconnect (open
event) leaves it at 7.5, not the base delay 5 — the reset-on-clean-reconnect
part of the claim fails for the RTDS stream client. -/
theorem rtds_backoff_not_reset_on_open :
    List.foldl rtdsDelayStep reconnectDelayBase [ConnEvent.retry, ConnEvent.opened]
      = 7.5 ∧ (7.5 : ℚ) ≠ reconnectDelayBase := by
  constructor
  · show rtdsDelayStep (rtdsDelayStep reconnectDelayBase .retry) .opened = 7.5
    show rtdsDelayStep (backoffNext reconnectDelayBase) .opened = 7.5
    show backoffNext reconnectDelayBase = 7.5
    rw [backoffNext]
    norm_num [reconnectDelayBase, maxReconnectDelay]
  · norm_num [reconnectDelayBase]

end WsPolymarket

/-! ## Signal composition engine (`src/apps/bot/src/signal_engine.py`)

`_run_tick` runs every 500 ms.  We embed one tick as a pure decision
function from a `TickInput` (the market dict plus everything the tick reads
from the ledger and the two stream clients) to an optional fired signal. -/

namespace SignalEngine

/-- `_FAIR_VALUE_UNDER = 0.45`. -/
def fairValueUnder : ℚ := 0.45

/-- `_LAST_SECOND_START = 40`. -/
def lastSecondStart : Int := 40

/-- `_LAST_SECOND_END = 25`. -/
def lastSecondEnd : Int := 25

/-- `_STRIKE_NEAR_PCT = 0.002`. -/
def strikeNearPct : ℚ := 0.002

/-- `_BTC_MOVE_PCT = 0.003`. -/
def btcMovePct : ℚ := 0.003

/-- `_IMBALANCE_SAMPLES = 60` (deque maxlen). -/
def imbalanceSamples : Nat := 60

/-- Configuration constants the engine imports from `src.config`.
Modelled from the spec: `MISPRICING_THRESHOLD`, `IMBALANCE_THRESHOLD` and
`MOMENTUM_LOOKBACK` are imported by `signal_engine.py` but defined nowhere in
the repository's files; the spec fixes the total-cost threshold at 0.98,
describes a symmetric imbalance threshold, and a momentum lookback of K
consecutive outcomes (the engine's docstring says 3).  `MAX_POSITION_SIZE`
comes from the environment with default 10.0. -/
structure EngineConfig where
  mispricingThreshold : ℚ
  imbalanceThreshold : ℚ
  momentumLookback : Nat
  maxPositionSize : ℚ
deriving Repr, DecidableEq

/-- `WhaleSignal`.  Modelled from the spec: the class is imported from
`src.ws_polymarket` but not defined in the repository's files; per the spec a
whale signal carries a direction and a contrarian flag (`opposite`, true for
spoof signals, meaning trade the opposite direction). -/
structure WhaleSignal where
  direction : String
  opposite : Bool
deriving Repr, DecidableEq

/-- The `SignalResult` dataclass. -/
structure SignalResult where
  fired : Bool
  action : Option String := none
  signalType : String := ""
  confidenceLayers : Nat := 0
  price : Option ℚ := none
  yesPrice : Option ℚ := none
  noPrice : Option ℚ := none
deriving Repr, DecidableEq

/-- The fields of the `market` dict that `_run_tick` reads (built by
`scanner_15min._fetch_one_market`). -/
structure Market where
  slug : String
  yesPrice : ℚ
  noPrice : ℚ
  secondsLeft : Int
  windowStartTs : Option Int
deriving Repr, DecidableEq

/-- `_position_size`: fractional Kelly ladder, 25% · 2^(layers−1) of the max,
capped at 100%. -/
def positionSize (cfg : EngineConfig) (confidenceLayers : Nat) : ℚ :=
  if confidenceLayers = 0 then 0
  else min 1 (0.25 * 2 ^ (confidenceLayers - 1)) * cfg.maxPositionSize

/-- `_check_p1_mispricing`: fire immediately on a stale-free book when the
ask sum is below the mispricing threshold (arbitrage, buy both) or either
single ask is below the deep-undervaluation constant (one-sided buy). -/
def checkP1Mispricing (cfg : EngineConfig) (yesAsk noAsk : Option ℚ)
    (stale : Bool) : Option SignalResult :=
  if stale then none
  else
    match yesAsk, noAsk with
    | some ya, some na =>
      let total := ya + na
      if total < cfg.mispricingThreshold then
        some { fired := true, action := some "bet_both",
               signalType := "mispricing_arb", confidenceLayers := 3,
               yesPrice := some ya, noPrice := some na }
      else if ya < fairValueUnder then
        some { fired := true, action := some "bet_yes",
               signalType := "mispricing_one_sided", confidenceLayers := 3,
               price := some ya }
      else if na < fairValueUnder then
        some { fired := true, action := some "bet_no",
               signalType := "mispricing_one_sided", confidenceLayers := 3,
               price := some na }
      else none
    | _, _ => none

/-- `_check_p2_whale`: most recent whale signal; a contrarian (spoof) signal
flips the apparent direction. -/
def checkP2Whale (signals : List WhaleSignal) : Option (String × Bool) :=
  match signals.getLast? with
  | none => none
  | some sig =>
    let direction :=
      if sig.opposite then (if sig.direction = "YES" then "NO" else "YES")
      else sig.direction
    some (direction, sig.opposite)

/-- `_check_p3_imbalance`: rolling-average order-book imbalance beyond the
symmetric threshold. -/
def checkP3Imbalance (cfg : EngineConfig) (imbalanceAvg : ℚ) : Option String :=
  if imbalanceAvg > cfg.imbalanceThreshold then some "YES"
  else if imbalanceAvg < -cfg.imbalanceThreshold then some "NO"
  else none

/-- `_check_p4_momentum`: the last `MOMENTUM_LOOKBACK` settled 5-minute
outcomes, firing only when they all agree (and the first one is non-empty). -/
def checkP4Momentum (cfg : EngineConfig) (outcomes : List String) : Option String :=
  if outcomes.length < cfg.momentumLookback then none
  else
    match outcomes.take cfg.momentumLookback with
    | [] => none
    | first :: rest =>
      if first = "" then none
      else if (first :: rest).all (fun o => o = first) then some first
      else none

/-- `_last_second_gate`: inside the final 25–40 s, allow entry only when BTC
is within 0.2% of the strike or it moved ≥ 0.3% in 60 s without the market
having re-priced; outside that band entry is always allowed. -/
def lastSecondGate (secondsLeft : Int) (btcSpot strikePrice : Option ℚ)
    (move60 : Option ℚ) (marketRepriced : Bool) : Bool :=
  if secondsLeft > lastSecondStart ∨ secondsLeft < lastSecondEnd then true
  else
    match btcSpot, strikePrice with
    | some b, some sp =>
      if sp ≤ 0 then false
      else if |b - sp| / sp ≤ strikeNearPct then true
      else
        match move60 with
        | some m => if btcMovePct ≤ |m| ∧ marketRepriced = false then true else false
        | none => false
    | _, _ => false

/-- One step of the tier-combination fold in `_run_tick` (the three
structurally identical `if` blocks for P2/P3/P4): a present tier either sets
the direction, confirms it, or — on disagreement — resets direction and layer
count to nothing (the collected labels are, as in the code, not cleared). -/
def tierStep (st : Option String × Nat × List String) (tier : Option String)
    (label : String) : Option String × Nat × List String :=
  match tier with
  | none => st
  | some td =>
    match st with
    | (none, layers, parts) => (some td, layers + 1, parts ++ [label])
    | (some d, layers, parts) =>
      if d = td then (some d, layers + 1, parts ++ [label])
      else (none, 0, parts)

/-- The whole combination fold over P2, P3, P4. -/
def combineTiers (p2 : Option (String × Bool)) (p3d p4d : Option String) :
    Option String × Nat × List String :=
  tierStep (tierStep (tierStep (none, 0, []) (p2.map Prod.fst) "whale")
    p3d "imbalance") p4d "momentum"

/-- `"+".join(parts) if parts else "combined"`. -/
def joinParts (parts : List String) : String :=
  match parts with
  | [] => "combined"
  | _ => String.intercalate "+" parts

/-- Everything one `_run_tick` call reads: the market dict, the ledger's
open-trade flag, the order-book client's best asks / imbalance volumes /
staleness, the whale-signal list, the prior contents of the 30 s imbalance
deque, the last settled 5-minute outcomes, and the RTDS client's spot price,
point-in-time lookup and 60 s move. -/
structure TickInput where
  market : Option Market
  hasOpenTrade : Bool
  yesAsk : Option ℚ
  noAsk : Option ℚ
  bidVol : ℚ
  askVol : ℚ
  obStale : Bool
  whaleSignals : List WhaleSignal
  imbalanceHistory : List ℚ
  outcomes : List String
  btcSpot : Option ℚ
  btcAtTimestamp : Int → Option ℚ
  move60 : Option ℚ

/-- The fired signal `_run_tick` hands to `execute_signal_engine_trade`
(the `signal` dict plus the extra keyword arguments). -/
structure FiredSignal where
  action : Option String
  price : Option ℚ
  yesPrice : Option ℚ
  noPrice : Option ℚ
  size : ℚ
  expectedProfit : ℚ
  confidence : ℚ
  signalType : String
  layers : Nat
deriving Repr, DecidableEq

/-- The instantaneous imbalance `(bid_vol - ask_vol) / total` (0 when the
summed volume is not positive). -/
def tickImb (inp : TickInput) : ℚ :=
  let totalVol := inp.bidVol + inp.askVol
  if totalVol > 0 then (inp.bidVol - inp.askVol) / totalVol else 0

/-- The imbalance deque after this tick's `append` (maxlen 60 drops the
oldest sample when full). -/
def tickHistory (inp : TickInput) : List ℚ :=
  (if imbalanceSamples ≤ inp.imbalanceHistory.length
   then inp.imbalanceHistory.drop 1 else inp.imbalanceHistory) ++ [tickImb inp]

/-- The rolling 30 s imbalance average used by P3 (the deque is never empty
right after the append, so the code's `else imb` fallback is vacuous). -/
def tickImbalanceAvg (inp : TickInput) : ℚ :=
  let h := tickHistory inp
  if h ≠ [] then h.sum / (h.length : ℚ) else tickImb inp

/-- The signal dict `_run_tick` builds when P1 fires. -/
def p1Signal (cfg : EngineConfig) (m : Market) (p1 : SignalResult) : FiredSignal :=
  let size := positionSize cfg p1.confidenceLayers
  let fallback : ℚ := if p1.action = some "bet_yes" then m.yesPrice else m.noPrice
  let s : FiredSignal :=
    { action := p1.action
      price := some (pyOrQ p1.price fallback)
      yesPrice := some (pyOrQ p1.yesPrice m.yesPrice)
      noPrice := some (pyOrQ p1.noPrice m.noPrice)
      size := size
      expectedProfit := if p1.action = some "bet_both" then size * 0.03 else size * 0.5
      confidence := 0.95
      signalType := p1.signalType
      layers := p1.confidenceLayers }
  if p1.action = some "bet_both" then
    { s with yesPrice := p1.yesPrice, noPrice := p1.noPrice }
  else s

/-- `_run_tick` as a decision function: `none` means the tick emits no trade
intent; `some s` means `execute_signal_engine_trade` is called with `s`. -/
def runTick (cfg : EngineConfig) (inp : TickInput) : Option FiredSignal :=
  match inp.market with
  | none => none
  | some m =>
    if inp.hasOpenTrade then none
    else
      match checkP1Mispricing cfg inp.yesAsk inp.noAsk inp.obStale with
      | some p1 => some (p1Signal cfg m p1)
      | none =>
        match combineTiers (checkP2Whale inp.whaleSignals)
            (checkP3Imbalance cfg (tickImbalanceAvg inp))
            (checkP4Momentum cfg inp.outcomes) with
        | (none, _, _) => none
        | (some direction, layers, parts) =>
          if layers < 2 then none
          else
            if lastSecondGate m.secondsLeft inp.btcSpot
                (match m.windowStartTs with
                 | some ts => inp.btcAtTimestamp ts
                 | none => none) inp.move60 false
            then
              some { action := some (if direction = "YES" then "bet_yes" else "bet_no")
                     price := some (if direction = "YES" then m.yesPrice else m.noPrice)
                     yesPrice := none
                     noPrice := none
                     size := positionSize cfg layers
                     expectedProfit := positionSize cfg layers * 0.5
                     confidence := 0.7 + (layers : ℚ) * 0.1
                     signalType := joinParts parts
                     layers := layers }
            else none

/-- Number of the three tier slots that yield exactly direction `d`. -/
def agreeingTierCount (a b c : Option String) (d : String) : Nat :=
  (if a = some d then 1 else 0) + (if b = some d then 1 else 0) +
    (if c = some d then 1 else 0)

/-- Number of the three tier slots that are present at all. -/
def presentTierCount (a b c : Option String) : Nat :=
  (if a.isSome then 1 else 0) + (if b.isSome then 1 else 0) +
    (if c.isSome then 1 else 0)

lemma tier3_sound (a b c : Option String) (d : String) (layers : Nat)
    (parts : List String)
    (h : tierStep (tierStep (tierStep (none, 0, []) a "whale") b "imbalance")
          c "momentum" = (some d, layers, parts))
    (h2 : 2 ≤ layers) :
    layers = agreeingTierCount a b c d ∧
    ∀ t ∈ [a, b, c], t = some d ∨ t = none := by
  rcases a with _ | x <;> rcases b with _ | y <;> rcases c with _ | z <;>
    simp only [tierStep] at h <;>
    (try split_ifs at h) <;>
    (try simp only [tierStep] at h) <;>
    (try split_ifs at h) <;>
    (try simp only [Prod.mk.injEq, Option.some.injEq, List.nil_append,
      List.cons_append, List.append_nil] at h) <;>
    first
    | (simp at h; done)
    | (obtain ⟨hd, hl, hp⟩ := h
       omega)
    | (obtain ⟨hd, hl, hp⟩ := h
       subst hd
       constructor
       · simp_all [agreeingTierCount]
         try omega
       · simp_all)

lemma agreeingTierCount_le_present (a b c : Option String) (d : String) :
    agreeingTierCount a b c d ≤ presentTierCount a b c := by
  rcases a with _ | x <;> rcases b with _ | y <;> rcases c with _ | z <;>
    simp [agreeingTierCount, presentTierCount] <;> split_ifs <;> omega

/-- If P1 did not fire and the tick emitted a signal, the combination fold
produced a direction with at least two layers, and the fired signal carries
that direction and layer count. -/
lemma runTick_combined_inv (cfg : EngineConfig) (inp : TickInput) (s : FiredSignal)
    (hp1 : checkP1Mispricing cfg inp.yesAsk inp.noAsk inp.obStale = none)
    (hr : runTick cfg inp = some s) :
    ∃ d layers parts,
      combineTiers (checkP2Whale inp.whaleSignals)
        (checkP3Imbalance cfg (tickImbalanceAvg inp))
        (checkP4Momentum cfg inp.outcomes) = (some d, layers, parts) ∧
      2 ≤ layers ∧
      s.action = some (if d = "YES" then "bet_yes" else "bet_no") ∧
      s.layers = layers := by
  unfold runTick at hr
  split at hr
  · cases hr
  · split at hr
    · cases hr
    · split at hr
      · rename_i p1 heq
        rw [hp1] at heq
        cases heq
      · split at hr
        · cases hr
        · rename_i direction layers parts heq
          split at hr
          · cases hr
          · rename_i hlt
            split at hr
            · refine ⟨direction, layers, parts, heq, by omega, ?_, ?_⟩
              · rw [← Option.some.inj hr]
              · rw [← Option.some.inj hr]
            · cases hr

/-- `runTick` when P1 fires: the tick returns the P1 signal immediately. -/
lemma runTick_p1 (cfg : EngineConfig) (inp : TickInput) (m : Market)
    (p1 : SignalResult)
    (hm : inp.market = some m) (ho : inp.hasOpenTrade = false)
    (hp1 : checkP1Mispricing cfg inp.yesAsk inp.noAsk inp.obStale = some p1) :
    runTick cfg inp = some (p1Signal cfg m p1) := by
  unfold runTick
  rw [hm]
  simp only [ho, Bool.false_eq_true, if_false]
  rw [hp1]

/-- C1: on a tick with market present, no open position, a non-stale book and
both best asks present, the P1 mispricing tier fires immediately and
independently of the whale/imbalance/momentum tier state (which `runTick`
receives but the P1 path never consults): if the ask sum is below the
total-cost threshold it fires `bet_both` carrying both asks (total cost
`ya + na`); otherwise a single ask below the deep-undervaluation constant
0.45 fires the corresponding one-sided buy at that ask. -/
theorem p1_mispricing_fires_immediately (cfg : EngineConfig) (inp : TickInput)
    (m : Market) (ya na : ℚ)
    (hm : inp.market = some m)
    (ho : inp.hasOpenTrade = false)
    (hs : inp.obStale = false)
    (hy : inp.yesAsk = some ya)
    (hn : inp.noAsk = some na) :
    (ya + na < cfg.mispricingThreshold →
      ∃ s, runTick cfg inp = some s ∧ s.action = some "bet_both" ∧
        s.signalType = "mispricing_arb" ∧ s.yesPrice = some ya ∧
        s.noPrice = some na ∧ s.layers = 3) ∧
    (cfg.mispricingThreshold ≤ ya + na → ya < fairValueUnder →
      ∃ s, runTick cfg inp = some s ∧ s.action = some "bet_yes" ∧
        s.signalType = "mispricing_one_sided" ∧ s.layers = 3 ∧
        (ya ≠ 0 → s.price = some ya)) ∧
    (cfg.mispricingThreshold ≤ ya + na → ¬ ya < fairValueUnder →
      na < fairValueUnder →
      ∃ s, runTick cfg inp = some s ∧ s.action = some "bet_no" ∧
        s.signalType = "mispricing_one_sided" ∧ s.layers = 3 ∧
        (na ≠ 0 → s.price = some na)) := by
  refine ⟨fun harb => ?_, fun hge hya => ?_, fun hge hya hna => ?_⟩
  · have hp1 : checkP1Mispricing cfg inp.yesAsk inp.noAsk inp.obStale
        = some { fired := true, action := some "bet_both",
                 signalType := "mispricing_arb", confidenceLayers := 3,
                 yesPrice := some ya, noPrice := some na } := by
      rw [hy, hn, hs]
      simp [checkP1Mispricing, harb]
    refine ⟨_, runTick_p1 cfg inp m _ hm ho hp1, ?_, ?_, ?_, ?_, ?_⟩ <;>
      simp [p1Signal]
  · have hp1 : checkP1Mispricing cfg inp.yesAsk inp.noAsk inp.obStale
        = some { fired := true, action := some "bet_yes",
                 signalType := "mispricing_one_sided", confidenceLayers := 3,
                 price := some ya } := by
      rw [hy, hn, hs]
      have : ¬ ya + na < cfg.mispricingThreshold := not_lt.mpr hge
      simp [checkP1Mispricing, this, hya]
    refine ⟨_, runTick_p1 cfg inp m _ hm ho hp1, ?_, ?_, ?_, fun hya0 => ?_⟩ <;>
      simp [p1Signal, pyOrQ]
    intro hc
    exact absurd hc hya0
  · have hp1 : checkP1Mispricing cfg inp.yesAsk inp.noAsk inp.obStale
        = some { fired := true, action := some "bet_no",
                 signalType := "mispricing_one_sided", confidenceLayers := 3,
                 price := some na } := by
      rw [hy, hn, hs]
      have : ¬ ya + na < cfg.mispricingThreshold := not_lt.mpr hge
      simp [checkP1Mispricing, this, hya, hna]
    refine ⟨_, runTick_p1 cfg inp m _ hm ho hp1, ?_, ?_, ?_, fun hna0 => ?_⟩ <;>
      simp [p1Signal, pyOrQ]
    intro hc
    exact absurd hc hna0

/-- Shared concrete engine configuration for examples: the spec's 0.98
mispricing threshold, an imbalance threshold of 0.1, momentum lookback 3,
max position size 10. -/
def cfgEx : EngineConfig :=
  { mispricingThreshold := 0.98, imbalanceThreshold := 1/10,
    momentumLookback := 3, maxPositionSize := 10 }

/-- Concrete market for the P1 example. -/
def mW1 : Market :=
  { slug := "btc-updown-15m-0", yesPrice := 0.5, noPrice := 0.5,
    secondsLeft := 100, windowStartTs := none }

/-- Concrete tick input for the P1 example: asks 0.40/0.55 with every lower
tier pointing the other way (whale NO, momentum NO) — P1 fires regardless. -/
def inpW1 : TickInput :=
  { market := some mW1, hasOpenTrade := false, yesAsk := some 0.40,
    noAsk := some 0.55, bidVol := 0, askVol := 0, obStale := false,
    whaleSignals := [{ direction := "NO", opposite := false }],
    imbalanceHistory := [], outcomes := ["NO", "NO", "NO"],
    btcSpot := none, btcAtTimestamp := fun _ => none, move60 := none }

/-- Witness for C1: `up_ask = 0.40, down_ask = 0.55` (sum 0.95, below the
0.98 threshold) fires `bet_both` carrying both asks (total cost 0.95), even
though the whale and momentum tiers both say NO. -/
theorem p1_mispricing_fires_immediately_witness :
    (0.40 : ℚ) + 0.55 = 0.95 ∧
    ∃ s, runTick cfgEx inpW1 = some s ∧ s.action = some "bet_both" ∧
      s.signalType = "mispricing_arb" ∧ s.yesPrice = some 0.40 ∧
      s.noPrice = some 0.55 ∧ s.layers = 3 :=
  ⟨by norm_num,
   (p1_mispricing_fires_immediately cfgEx inpW1 mW1 0.40 0.55 rfl rfl rfl rfl
      rfl).1 (by norm_num [cfgEx])⟩

/-- The direction the P2 whale tier contributes to the combination. -/
def tickP2 (inp : TickInput) : Option String :=
  (checkP2Whale inp.whaleSignals).map Prod.fst

/-- The direction the P3 imbalance tier contributes on this tick. -/
def tickP3 (cfg : EngineConfig) (inp : TickInput) : Option String :=
  checkP3Imbalance cfg (tickImbalanceAvg inp)

/-- The direction the P4 momentum tier contributes on this tick. -/
def tickP4 (cfg : EngineConfig) (inp : TickInput) : Option String :=
  checkP4Momentum cfg inp.outcomes

/-- C2: on a tick where P1 does not fire, (i) a fired combined signal names a
direction `d` on which at least two tiers agree, carries exactly the number
of agreeing tiers as its layer count, and no present tier disagrees with `d`;
(ii) with at most one tier present nothing fires; (iii) with two present
tiers of different directions nothing fires. -/
theorem combined_signal_requires_two_agreeing_tiers (cfg : EngineConfig)
    (inp : TickInput)
    (hp1 : checkP1Mispricing cfg inp.yesAsk inp.noAsk inp.obStale = none) :
    (∀ s, runTick cfg inp = some s →
      ∃ d, s.action = some (if d = "YES" then "bet_yes" else "bet_no") ∧
        s.layers = agreeingTierCount (tickP2 inp) (tickP3 cfg inp) (tickP4 cfg inp) d ∧
        2 ≤ agreeingTierCount (tickP2 inp) (tickP3 cfg inp) (tickP4 cfg inp) d ∧
        ∀ t ∈ [tickP2 inp, tickP3 cfg inp, tickP4 cfg inp],
          t = some d ∨ t = none) ∧
    (presentTierCount (tickP2 inp) (tickP3 cfg inp) (tickP4 cfg inp) ≤ 1 →
      runTick cfg inp = none) ∧
    (∀ d1 d2, some d1 ∈ [tickP2 inp, tickP3 cfg inp, tickP4 cfg inp] →
      some d2 ∈ [tickP2 inp, tickP3 cfg inp, tickP4 cfg inp] → d1 ≠ d2 →
      runTick cfg inp = none) := by
  have key : ∀ s, runTick cfg inp = some s →
      ∃ d, s.action = some (if d = "YES" then "bet_yes" else "bet_no") ∧
        s.layers = agreeingTierCount (tickP2 inp) (tickP3 cfg inp) (tickP4 cfg inp) d ∧
        2 ≤ agreeingTierCount (tickP2 inp) (tickP3 cfg inp) (tickP4 cfg inp) d ∧
        ∀ t ∈ [tickP2 inp, tickP3 cfg inp, tickP4 cfg inp],
          t = some d ∨ t = none := by
    intro s hr
    obtain ⟨d, layers, parts, hcomb, h2, hact, hlay⟩ :=
      runTick_combined_inv cfg inp s hp1 hr
    obtain ⟨hcount, hagree⟩ :=
      tier3_sound (tickP2 inp) (tickP3 cfg inp) (tickP4 cfg inp) d layers parts
        hcomb h2
    exact ⟨d, hact, by rw [hlay, hcount], by rw [← hcount]; exact h2, hagree⟩
  refine ⟨key, fun hle => ?_, fun d1 d2 h1 h2 hne => ?_⟩
  · cases hrt : runTick cfg inp with
    | none => rfl
    | some s =>
      exfalso
      obtain ⟨d, _, _, h2c, _⟩ := key s hrt
      have := agreeingTierCount_le_present (tickP2 inp) (tickP3 cfg inp)
        (tickP4 cfg inp) d
      omega
  · cases hrt : runTick cfg inp with
    | none => rfl
    | some s =>
      exfalso
      obtain ⟨d, _, _, _, hagree⟩ := key s hrt
      have hd1 : d1 = d := by
        rcases hagree _ h1 with h | h
        · exact Option.some.inj h
        · cases h
      have hd2 : d2 = d := by
        rcases hagree _ h2 with h | h
        · exact Option.some.inj h
        · cases h
      exact hne (hd1.trans hd2.symm)

/-- Concrete market for the combined-signal example. -/
def mW2 : Market :=
  { slug := "btc-updown-15m-0", yesPrice := 0.5, noPrice := 0.5,
    secondsLeft := 100, windowStartTs := none }

/-- Concrete tick input whose P3 (imbalance) and P4 (momentum) tiers both say
YES and whose P2 whale tier is absent; P1 cannot fire (no asks). -/
def inpW2 : TickInput :=
  { market := some mW2, hasOpenTrade := false, yesAsk := none, noAsk := none,
    bidVol := 1, askVol := 0, obStale := false, whaleSignals := [],
    imbalanceHistory := [], outcomes := ["YES", "YES", "YES"],
    btcSpot := none, btcAtTimestamp := fun _ => none, move60 := none }

/-- The signal `runTick cfgEx inpW2` fires. -/
def sW2 : FiredSignal :=
  { action := some "bet_yes", price := some 0.5, yesPrice := none,
    noPrice := none, size := 5, expectedProfit := 2.5, confidence := 0.9,
    signalType := "imbalance+momentum", layers := 2 }

lemma runTick_inpW2 : runTick cfgEx inpW2 = some sW2 := by
  have hp3 : checkP3Imbalance cfgEx (tickImbalanceAvg inpW2) = some "YES" := by
    have havg : tickImbalanceAvg inpW2 = 1 := by
      norm_num [tickImbalanceAvg, tickHistory, tickImb, imbalanceSamples, inpW2]
    rw [havg]
    norm_num [checkP3Imbalance, cfgEx]
  have hp4 : checkP4Momentum cfgEx inpW2.outcomes = some "YES" := by decide
  unfold runTick
  show (match checkP1Mispricing cfgEx inpW2.yesAsk inpW2.noAsk inpW2.obStale with
    | some p1 => some (p1Signal cfgEx mW2 p1)
    | none => _) = some sW2
  rw [show checkP1Mispricing cfgEx inpW2.yesAsk inpW2.noAsk inpW2.obStale = none
    from rfl]
  rw [show checkP2Whale inpW2.whaleSignals = none from rfl, hp3, hp4]
  rw [show combineTiers none (some "YES") (some "YES")
    = (some "YES", 2, ["imbalance", "momentum"]) from by decide]
  norm_num [lastSecondGate, mW2, inpW2, lastSecondStart, lastSecondEnd, sW2,
    positionSize, cfgEx, joinParts]
  decide

/-- Witness for C2 at a concrete tick: P3 = YES and P4 = YES with P2 absent
fire a combined `bet_yes` with layer count 2; the agreement conclusions come
from the theorem applied at this input. -/
theorem combined_signal_requires_two_agreeing_tiers_witness :
    (∃ s, runTick cfgEx inpW2 = some s ∧ s.action = some "bet_yes" ∧
      s.layers = 2) ∧
    (∃ d, sW2.action = some (if d = "YES" then "bet_yes" else "bet_no") ∧
      sW2.layers = agreeingTierCount (tickP2 inpW2) (tickP3 cfgEx inpW2)
        (tickP4 cfgEx inpW2) d ∧
      2 ≤ agreeingTierCount (tickP2 inpW2) (tickP3 cfgEx inpW2)
        (tickP4 cfgEx inpW2) d ∧
      ∀ t ∈ [tickP2 inpW2, tickP3 cfgEx inpW2, tickP4 cfgEx inpW2],
        t = some d ∨ t = none) :=
  ⟨⟨sW2, runTick_inpW2, rfl, rfl⟩,
   (combined_signal_requires_two_agreeing_tiers cfgEx inpW2 rfl).1
     sW2 runTick_inpW2⟩

/-- C7 (amended): the tick-skip behaviour the code actually implements.
The engine skips the tick when the market is absent or an open trade already
exists for the slug; staleness and missing best asks gate only the P1
mispricing tier; and full order-book data absence with no whale signals and
no momentum outcomes never fires.  (There is no skip on "start reference
price unresolved" or "more than the entry window remains": see the
counterexample `runTick_fires_despite_stale_missing_data`.) -/
theorem runTick_skip_behaviour (cfg : EngineConfig) (inp : TickInput) :
    (inp.market = none → runTick cfg inp = none) ∧
    (inp.hasOpenTrade = true → runTick cfg inp = none) ∧
    (inp.obStale = true ∨ inp.yesAsk = none ∨ inp.noAsk = none →
      checkP1Mispricing cfg inp.yesAsk inp.noAsk inp.obStale = none) ∧
    (inp.yesAsk = none → inp.whaleSignals = [] → inp.outcomes = [] →
      runTick cfg inp = none) := by
  have hp1abs : inp.obStale = true ∨ inp.yesAsk = none ∨ inp.noAsk = none →
      checkP1Mispricing cfg inp.yesAsk inp.noAsk inp.obStale = none := by
    rintro (h | h | h)
    · simp [checkP1Mispricing, h]
    · cases hna : inp.noAsk <;> simp [checkP1Mispricing, h, hna]
    · cases hya : inp.yesAsk <;> simp [checkP1Mispricing, h, hya]
  refine ⟨fun h => by simp [runTick, h], fun h => ?_, hp1abs, fun hy hw hoc => ?_⟩
  · cases hm : inp.market with
    | none => simp [runTick, hm]
    | some m => simp [runTick, hm, h]
  · have hp1 : checkP1Mispricing cfg inp.yesAsk inp.noAsk inp.obStale = none :=
      hp1abs (Or.inr (Or.inl hy))
    have hp2 : checkP2Whale inp.whaleSignals = none := by
      simp [checkP2Whale, hw]
    have hp4 : checkP4Momentum cfg inp.outcomes = none := by
      rw [hoc]
      unfold checkP4Momentum
      by_cases h : ([] : List String).length < cfg.momentumLookback
      · simp [h]
      · simp [h]
    cases hm : inp.market with
    | none => simp [runTick, hm]
    | some m =>
      by_cases ho : inp.hasOpenTrade
      · simp [runTick, hm, ho]
      · cases hp3 : checkP3Imbalance cfg (tickImbalanceAvg inp) with
        | none =>
          simp [runTick, hm, ho, hp1, hp2, hp3, hp4, combineTiers, tierStep]
        | some d3 =>
          simp [runTick, hm, ho, hp1, hp2, hp3, hp4, combineTiers, tierStep]

/-- Concrete market with no resolvable start reference price and most of the
window still remaining. -/
def mC7 : Market :=
  { slug := "btc-updown-15m-0", yesPrice := 0.5, noPrice := 0.5,
    secondsLeft := 890, windowStartTs := none }

/-- Concrete tick input: stale order book, both best asks missing, no start
price, yet a whale signal and three agreeing momentum outcomes are present. -/
def inpC7 : TickInput :=
  { market := some mC7, hasOpenTrade := false, yesAsk := none, noAsk := none,
    bidVol := 0, askVol := 0, obStale := true,
    whaleSignals := [{ direction := "YES", opposite := false }],
    imbalanceHistory := [], outcomes := ["YES", "YES", "YES"],
    btcSpot := none, btcAtTimestamp := fun _ => none, move60 := none }

/-- The signal `runTick cfgEx inpC7` fires. -/
def sC7 : FiredSignal :=
  { action := some "bet_yes", price := some 0.5, yesPrice := none,
    noPrice := none, size := 5, expectedProfit := 2.5, confidence := 0.9,
    signalType := "whale+momentum", layers := 2 }

/-- C7, counterexample to the claim as stated: on a tick whose order book is
stale with both best asks missing, whose market has no resolved start
reference price, and with 890 s (more than any configured entry window) still
remaining, the engine nevertheless emits a `bet_yes` trade intent from the
whale + momentum tiers — the claimed skip conditions are not implemented for
the combined path. -/
theorem runTick_fires_despite_stale_missing_data :
    inpC7.obStale = true ∧ inpC7.yesAsk = none ∧ inpC7.noAsk = none ∧
    mC7.windowStartTs = none ∧ mC7.secondsLeft = 890 ∧
    runTick cfgEx inpC7 = some sC7 := by
  refine ⟨rfl, rfl, rfl, rfl, rfl, ?_⟩
  have hp3 : checkP3Imbalance cfgEx (tickImbalanceAvg inpC7) = none := by
    have havg : tickImbalanceAvg inpC7 = 0 := by
      norm_num [tickImbalanceAvg, tickHistory, tickImb, imbalanceSamples, inpC7]
    rw [havg]
    norm_num [checkP3Imbalance, cfgEx]
  have hp4 : checkP4Momentum cfgEx inpC7.outcomes = some "YES" := by decide
  unfold runTick
  show (match checkP1Mispricing cfgEx inpC7.yesAsk inpC7.noAsk inpC7.obStale with
    | some p1 => some (p1Signal cfgEx mC7 p1)
    | none => _) = some sC7
  rw [show checkP1Mispricing cfgEx inpC7.yesAsk inpC7.noAsk inpC7.obStale = none
    from rfl]
  rw [show checkP2Whale inpC7.whaleSignals = some ("YES", false) from rfl, hp3, hp4]
  rw [show combineTiers (some ("YES", false)) none (some "YES")
    = (some "YES", 2, ["whale", "momentum"]) from by decide]
  norm_num [lastSecondGate, mC7, inpC7, lastSecondStart, lastSecondEnd, sC7,
    positionSize, cfgEx, joinParts]
  decide

end SignalEngine

/-! ## Settlement resolver (`src/apps/bot/src/settlement.py`) and ledger
(`src/apps/bot/src/database.py`)

The ledger is Convex behind `database.py`; its query/mutation functions are
not part of the repository, so the ledger state is modelled from the spec as
an explicit `Db` value (a trade table and a market-outcome table) and the
`database.py` wrappers as pure functions on it. -/

namespace Settlement

/-- `_WINNER_THRESHOLD = 0.98`. -/
def winnerThreshold : ℚ := 0.98

/-- `_RTDS_SETTLE_BUFFER_SEC = 2`. -/
def rtdsSettleBufferSec : Int := 2

/-- `_WINDOW_5M_SEC = 300`. -/
def window5mSec : Int := 300

/-- `_WINDOW_15M_SEC = 900`. -/
def window15mSec : Int := 900

/-- Split a character list at a separator character (used to model the
anchored slug regexes `btc-updown-5m-(\d+)$` and
`([a-z]+)-updown-15m-(\d+)$`: the groups cannot contain `-`). -/
def splitOnDash : List Char → List (List Char)
  | [] => [[]]
  | c :: cs =>
    let r := splitOnDash cs
    if c = '-' then [] :: r
    else
      match r with
      | [] => [[c]]
      | g :: gs => (c :: g) :: gs

/-- Decimal digits to a number (the regex group `(\d+)` passed to `int`). -/
def digitsToNat : List Char → Nat → Nat
  | [], acc => acc
  | c :: cs, acc => digitsToNat cs (acc * 10 + (c.toNat - '0'.toNat))

/-- `[a-z]`. -/
def isLowerAlpha (c : Char) : Bool :=
  decide ('a' ≤ c) && decide (c ≤ 'z')

/-- Python `str.strip()` on the character-list view. -/
def stripChars (cs : List Char) : List Char :=
  ((cs.dropWhile Char.isWhitespace).reverse.dropWhile Char.isWhitespace).reverse

/-- `_parse_btc_5m_slug`: accept exactly `btc-updown-5m-{digits}` and return
the window's start/end Unix seconds. -/
def parseBtc5mSlug (slug : String) : Option (Int × Int) :=
  match splitOnDash slug.data with
  | [b, u, f, ts] =>
    if b = "btc".data ∧ u = "updown".data ∧ f = "5m".data ∧
        ts ≠ [] ∧ ts.all Char.isDigit then
      some ((digitsToNat ts 0 : Int), (digitsToNat ts 0 : Int) + window5mSec)
    else none
  | _ => none

/-- `_parse_15m_slug`: accept exactly `{asset}-updown-15m-{digits}` (after
strip + lowercase) and return the asset with the window bounds. -/
def parse15mSlug (slug : String) : Option (String × Int × Int) :=
  match splitOnDash ((stripChars slug.data).map Char.toLower) with
  | [asset, u, f, ts] =>
    if asset ≠ [] ∧ asset.all isLowerAlpha ∧ u = "updown".data ∧
        f = "15m".data ∧ ts ≠ [] ∧ ts.all Char.isDigit then
      some (String.mk asset, (digitsToNat ts 0 : Int),
        (digitsToNat ts 0 : Int) + window15mSec)
    else none
  | _ => none

/-- The RTDS price-lookup functions exist for exactly these assets
(`fns = {"btc": ..., "eth": ..., "sol": ..., "xrp": ...}`). -/
def rtdsAssets : List String := ["btc", "eth", "sol", "xrp"]

/-- The window (asset, start, end) `resolve_outcome_via_rtds` extracts from a
slug, `none` when the slug fits neither pattern or no price function exists
for the asset. -/
def rtdsWindow (slug : String) : Option (String × Int × Int) :=
  match parseBtc5mSlug slug with
  | some (ws, we) => some ("btc", ws, we)
  | none =>
    match parse15mSlug slug with
    | some (a, ws, we) => if a ∈ rtdsAssets then some (a, ws, we) else none
    | none => none

/-- `resolve_outcome_via_rtds`: once the window end plus the short buffer has
passed, compare the reference price at the window end with the one at the
window start; YES (up) exactly when end ≥ start.  `priceAt` stands for the
RTDS client's per-asset `get_*_at_timestamp` lookups. -/
def resolveOutcomeViaRtds (now : Int) (slug : String)
    (priceAt : String → Int → Option ℚ) : Option String :=
  match rtdsWindow slug with
  | none => none
  | some (a, ws, we) =>
    if now < we + rtdsSettleBufferSec then none
    else
      match priceAt a ws, priceAt a we with
      | some startPrice, some endPrice =>
        some (if startPrice ≤ endPrice then "YES" else "NO")
      | _, _ => none

/-- The fields of the Gamma market-directory response that
`check_market_resolution` reads (after HTTP/JSON handling, which yields
`none` on any failure). -/
structure GammaMarket where
  closed : Bool
  outcomePrices : List ℚ
deriving Repr, DecidableEq

/-- The decision logic of `check_market_resolution`: resolved only when the
market is closed and one side's settlement price reaches the near-certainty
threshold. -/
def checkMarketResolution (resp : Option GammaMarket) : Option String :=
  match resp with
  | none => none
  | some m =>
    if m.closed = false then none
    else
      match m.outcomePrices with
      | p0 :: p1 :: _ =>
        if winnerThreshold ≤ p0 then some "YES"
        else if winnerThreshold ≤ p1 then some "NO"
        else none
      | _ => none

/-- A row of the ledger's trade table (the dict shape `settle_trades` and
`calculate_trade_pnl` read, written by the executor). -/
structure TradeRec where
  id : Nat
  marketTicker : String
  conditionId : String
  side : Option String
  action : Option String
  price : Option ℚ
  yesPrice : Option ℚ
  noPrice : Option ℚ
  positionSize : Option ℚ
  size : Option ℚ
  polymarketOrderId : Option String
  status : String
  marketOutcome : Option String
  actualProfit : Option ℚ
  settledAt : Option Int
deriving Repr, DecidableEq

/-- `bet_side = trade.get("side") or trade.get("action") or ""`. -/
def betSideOf (trade : TradeRec) : String :=
  pyOrStr trade.side (pyOrStr trade.action "")

/-- `size = trade.get("position_size") or trade.get("size") or 0`. -/
def tradeSizeOf (trade : TradeRec) : ℚ :=
  pyOrQ trade.positionSize (pyOrQ trade.size 0)

/-- `calculate_trade_pnl`: paper-fill profit from the recorded intended
price.  Win: `size / price − size`; loss: `−size`; ARBITRAGE trades: 0. -/
def calculateTradePnl (trade : TradeRec) (marketOutcome : String) : ℚ :=
  if tradeSizeOf trade ≤ 0 then 0
  else if betSideOf trade = "ARBITRAGE" then 0
  else if betSideOf trade = "YES" then
    if marketOutcome = "YES" then
      if pyOrQ trade.price 0.5 ≤ 0 then 0
      else tradeSizeOf trade / pyOrQ trade.price 0.5 - tradeSizeOf trade
    else -(tradeSizeOf trade)
  else if betSideOf trade = "NO" then
    if marketOutcome = "NO" then
      if pyOrQ trade.price 0.5 ≤ 0 then 0
      else tradeSizeOf trade / pyOrQ trade.price 0.5 - tradeSizeOf trade
    else -(tradeSizeOf trade)
  else 0

/-- `status = "won" if actual_pnl > 0 else "lost"` (settle_trades). -/
def settleStatus (pnl : ℚ) : String :=
  if pnl > 0 then "won" else "lost"

/-- A row of the ledger's market-outcome table (`SettlementRecord`). -/
structure OutcomeRec where
  slug : String
  conditionId : String
  outcome : String
  resolvedAt : Int
deriving Repr, DecidableEq

/-- The ledger state behind `database.py`. -/
structure Db where
  trades : List TradeRec
  outcomes : List OutcomeRec
deriving Repr, DecidableEq

/-- Modelled from the spec: `list_unsettled_trades` calls the Convex query
`trades:listUnsettled`, whose code is not in the repository; per the spec and
the wrapper's docstring it returns the unsettled (status `paper`) trades. -/
def listUnsettledTrades (db : Db) : List TradeRec :=
  db.trades.filter (fun t => t.status = "paper")

/-- Modelled from the spec: `get_market_outcome_by_slug` calls the Convex
query `marketOutcomes:getBySlug` (not in the repository); it returns the
market-outcome record for the slug, if any. -/
def getMarketOutcomeBySlug (db : Db) (slug : String) : Option OutcomeRec :=
  db.outcomes.find? (fun r => r.slug = slug)

/-- Modelled from the spec: `insert_market_outcome` calls the Convex
mutation `marketOutcomes:insert` (not in the repository); it appends a new
record and touches nothing else. -/
def insertMarketOutcome (db : Db) (r : OutcomeRec) : Db :=
  { db with outcomes := db.outcomes ++ [r] }

/-- The per-row update `trades:updateSettlement` performs for
`update_trade_settlement` (mutation not in the repository; modelled from the
spec: set the outcome, profit, status and settlement time of that trade). -/
def updTradeFun (tradeId : Nat) (marketOutcome : String) (actualProfit : ℚ)
    (status : String) (settledAtMs : Int) (t : TradeRec) : TradeRec :=
  if t.id = tradeId then
    { t with marketOutcome := some marketOutcome,
             actualProfit := some actualProfit,
             status := status, settledAt := some settledAtMs }
  else t

/-- Modelled from the spec: `update_trade_settlement` applies `updTradeFun`
to the trade table. -/
def updateTradeSettlement (db : Db) (tradeId : Nat) (marketOutcome : String)
    (actualProfit : ℚ) (status : String) (settledAtMs : Int) : Db :=
  { db with
    trades :=
      db.trades.map (updTradeFun tradeId marketOutcome actualProfit status settledAtMs) }

/-- The external data one `settle_trades` run consults: the CLOB
market-resolved notifications (condition id → outcome), the clock, the RTDS
point-in-time lookup, the Gamma resolution response per slug, and the
CLOB fill-based PnL lookup (condition id, outcome, our order id). -/
structure SettleEnv where
  clobResolved : List (String × String)
  nowSec : Int
  priceAt : String → Int → Option ℚ
  gammaResp : String → Option GammaMarket
  clobPnl : String → String → String → Option ℚ

/-- Association-list read for the notification map. -/
def lookupStr : List (String × String) → String → Option String
  | [], _ => none
  | e :: rest, k => if e.1 = k then some e.2 else lookupStr rest k

/-- The per-slug resolution cascade in `settle_trades`: the CLOB notification
keyed by condition id first, then RTDS, then the Gamma REST status. -/
def resolveForSlug (env : SettleEnv) (slug conditionId : String) : Option String :=
  match (if conditionId ≠ "" then lookupStr env.clobResolved conditionId else none) with
  | some o => some o
  | none =>
    match resolveOutcomeViaRtds env.nowSec slug env.priceAt with
    | some o => some o
    | none => checkMarketResolution (env.gammaResp slug)

/-- The per-trade PnL in `settle_trades`: prefer the CLOB fill-based PnL when
we have both an order id and a condition id, else fall back to the
intended-price computation. -/
def pnlFor (env : SettleEnv) (t : TradeRec) (conditionId outcome : String) : ℚ :=
  match t.polymarketOrderId with
  | some oid =>
    if oid ≠ "" ∧ conditionId ≠ "" then
      match env.clobPnl conditionId outcome oid with
      | some p => p
      | none => calculateTradePnl t outcome
    else calculateTradePnl t outcome
  | none => calculateTradePnl t outcome

/-- The body of the inner `for trade in ...` loop of `settle_trades`: skip
trades that already carry an outcome, otherwise write the settlement. -/
def settleTradeStep (env : SettleEnv) (conditionId outcome : String)
    (nowMs : Int) (acc : Db) (t : TradeRec) : Db :=
  if t.marketOutcome.isSome then acc
  else
    updateTradeSettlement acc t.id outcome (pnlFor env t conditionId outcome)
      (settleStatus (pnlFor env t conditionId outcome)) nowMs

/-- One slug's settlement pass in `settle_trades`: resolve the slug from the
cascade, write the outcome record unless one exists, then settle each
captured unsettled trade of the slug that has no outcome yet. -/
def settleSlug (env : SettleEnv) (unsettled : List TradeRec) (nowMs : Int)
    (db : Db) (slug : String) : Db :=
  match unsettled.find? (fun t => t.marketTicker = slug) with
  | none => db
  | some first =>
    match resolveForSlug env slug first.conditionId with
    | none => db
    | some outcome =>
      let db1 :=
        match getMarketOutcomeBySlug db slug with
        | some _ => db
        | none =>
          insertMarketOutcome db
            { slug := slug, conditionId := first.conditionId,
              outcome := outcome, resolvedAt := nowMs }
      (unsettled.filter (fun t => t.marketTicker = slug)).foldl
        (settleTradeStep env first.conditionId outcome nowMs) db1

/-- The slug set iterated by `settle_trades` (a Python `set`, modelled as
first-occurrence dedup of the non-empty, non-`"unknown"` tickers). -/
def dedupFirst : List String → List String
  | [] => []
  | s :: rest => s :: dedupFirst (rest.filter (fun x => x ≠ s))
termination_by l => l.length
decreasing_by
  simp only [List.length_cons]
  exact Nat.lt_succ_of_le (List.length_filter_le _ _)

/-- `settle_trades`: list the unsettled trades once, then run the per-slug
pass for every distinct slug among them. -/
def settleTrades (env : SettleEnv) (nowMs : Int) (db : Db) : Db :=
  match listUnsettledTrades db with
  | [] => db
  | unsettled =>
    (dedupFirst ((unsettled.filter
        (fun t => t.marketTicker ≠ "" ∧ t.marketTicker ≠ "unknown")).map
          (fun t => t.marketTicker))).foldl
      (settleSlug env unsettled nowMs) db

end Settlement

/-! ## Executor (`src/apps/bot/src/executor.py`)

`PAPER_MODE` is hard-coded `True` in `src/apps/bot/src/config.py`, so
`execute_trade` always takes the paper path; its `bet_both` branch records an
ARBITRAGE trade, the other branch a directional YES/NO trade.  The ledger
assigns the row id (`tradeId` here); a fresh row starts with status `paper`
and no outcome. -/

namespace Executor

/-- The fields of the `signal` dict `execute_trade` reads. -/
structure SignalDict where
  action : String
  strategy : Option String
  price : Option ℚ
  yesPrice : Option ℚ
  noPrice : Option ℚ
  size : Option ℚ
  expectedProfit : Option ℚ
  confidence : Option ℚ
  reason : Option String

/-- The fields of the `market` dict `execute_trade` reads. -/
structure MarketDict where
  slug : Option String
  question : Option String
  conditionId : Option String
  yesPrice : Option ℚ
  noPrice : Option ℚ

/-- The trade row `execute_trade` builds in paper mode and hands to
`log_trade`. -/
def executeTradePaper (tradeId : Nat) (market : MarketDict)
    (signal : SignalDict) : Settlement.TradeRec :=
  if signal.action = "bet_both" then
    { id := tradeId
      marketTicker := pyOrStr market.slug (pyOrStr market.question "unknown")
      conditionId := pyOrStr market.conditionId ""
      side := some "ARBITRAGE"
      action := some "ARBITRAGE"
      price := none
      yesPrice := signal.yesPrice
      noPrice := signal.noPrice
      positionSize := some (pyOrQ signal.size 0)
      size := some (pyOrQ signal.size 0)
      polymarketOrderId := none
      status := "paper"
      marketOutcome := none
      actualProfit := none
      settledAt := none }
  else
    { id := tradeId
      marketTicker := pyOrStr market.slug (pyOrStr market.question "unknown")
      conditionId := pyOrStr market.conditionId ""
      side := some (if signal.action = "bet_yes" then "YES" else "NO")
      action := some (if signal.action = "bet_yes" then "YES" else "NO")
      price := signal.price
      yesPrice := market.yesPrice
      noPrice := market.noPrice
      positionSize := some (pyOrQ signal.size 0)
      size := some (pyOrQ signal.size 0)
      polymarketOrderId := none
      status := "paper"
      marketOutcome := none
      actualProfit := none
      settledAt := none }

end Executor

namespace Settlement

/-- C4: for a settled directional trade (no authoritative fill is consulted
by `calculate_trade_pnl`), profit is computed from the recorded intended
price assuming full fill: a win pays `size / price − size`, a loss `−size`,
for both the YES (up) and NO (down) sides. -/
theorem calculateTradePnl_from_intended_price (t : TradeRec) (s p : ℚ)
    (hsize : t.positionSize = some s) (hs : 0 < s)
    (hprice : t.price = some p) (hp : 0 < p) :
    (betSideOf t = "YES" →
      calculateTradePnl t "YES" = s / p - s ∧ calculateTradePnl t "NO" = -s) ∧
    (betSideOf t = "NO" →
      calculateTradePnl t "NO" = s / p - s ∧ calculateTradePnl t "YES" = -s) := by
  have hsz : tradeSizeOf t = s := by
    rw [tradeSizeOf, hsize]
    simp [pyOrQ, hs.ne']
  have hpr : pyOrQ t.price 0.5 = p := by
    rw [hprice]
    simp [pyOrQ, hp.ne']
  have hszn : ¬ tradeSizeOf t ≤ 0 := by rw [hsz]; exact not_le.mpr hs
  have hprn : ¬ pyOrQ t.price 0.5 ≤ 0 := by rw [hpr]; exact not_le.mpr hp
  have hs0 : ¬ s ≤ 0 := not_le.mpr hs
  have hp0 : ¬ p ≤ 0 := not_le.mpr hp
  constructor
  · intro hside
    constructor
    · simp [calculateTradePnl, hszn, hside, hsz, hpr, hprn, hs0, hp0]
    · simp [calculateTradePnl, hszn, hside, hsz, hs0]
  · intro hside
    constructor
    · simp [calculateTradePnl, hszn, hside, hsz, hpr, hprn, hs0, hp0]
    · simp [calculateTradePnl, hszn, hside, hsz, hs0]

/-- Concrete UP trade of size 10 at price 0.40. -/
def tradeW4 : TradeRec :=
  { id := 1, marketTicker := "btc-updown-15m-0", conditionId := "0xc",
    side := some "YES", action := some "YES", price := some 0.40,
    yesPrice := some 0.40, noPrice := some 0.60, positionSize := some 10,
    size := some 10, polymarketOrderId := none, status := "paper",
    marketOutcome := none, actualProfit := none, settledAt := none }

/-- Witness for C4: size 10 at 0.40 resolving UP yields +15.0; resolving
DOWN yields −10.0. -/
theorem calculateTradePnl_from_intended_price_witness :
    calculateTradePnl tradeW4 "YES" = 15 ∧ calculateTradePnl tradeW4 "NO" = -10 := by
  have h := (calculateTradePnl_from_intended_price tradeW4 10 0.40 rfl
    (by norm_num) rfl (by norm_num)).1 (by rfl)
  refine ⟨?_, ?_⟩
  · rw [h.1]
    norm_num
  · rw [h.2]

/-- C5: the settlement resolver's strict source order and per-source
semantics.  (i) An execution-venue market-resolved notification keyed by the
condition id wins outright; (ii) otherwise the cascade falls to the RTDS
reference stream and then the Gamma REST status; (iii) RTDS never resolves
before window end + buffer; (iv) after the buffer, with both prices present,
RTDS resolves UP exactly when the window-end price is ≥ the window-start
price; (v) the REST status resolves only a closed market with one side's
settlement price at or above the 0.98 near-certainty threshold; (vi) when no
source resolves the slug, the per-slug settlement pass leaves the ledger
untouched, so the trade stays unsettled for the next cycle. -/
theorem settlement_resolution_source_order (env : SettleEnv) (slug cid : String) :
    (∀ o, cid ≠ "" → lookupStr env.clobResolved cid = some o →
      resolveForSlug env slug cid = some o) ∧
    ((cid = "" ∨ lookupStr env.clobResolved cid = none) →
      resolveForSlug env slug cid
        = (match resolveOutcomeViaRtds env.nowSec slug env.priceAt with
           | some o => some o
           | none => checkMarketResolution (env.gammaResp slug))) ∧
    (∀ a ws we, rtdsWindow slug = some (a, ws, we) →
      env.nowSec < we + rtdsSettleBufferSec →
      resolveOutcomeViaRtds env.nowSec slug env.priceAt = none) ∧
    (∀ a ws we startPrice endPrice, rtdsWindow slug = some (a, ws, we) →
      ¬ env.nowSec < we + rtdsSettleBufferSec →
      env.priceAt a ws = some startPrice → env.priceAt a we = some endPrice →
      resolveOutcomeViaRtds env.nowSec slug env.priceAt
        = some (if startPrice ≤ endPrice then "YES" else "NO")) ∧
    (∀ m o, checkMarketResolution (some m) = some o →
      m.closed = true ∧
      ((o = "YES" ∧ ∃ p0 p1 rest, m.outcomePrices = p0 :: p1 :: rest ∧
          winnerThreshold ≤ p0) ∨
       (o = "NO" ∧ ∃ p0 p1 rest, m.outcomePrices = p0 :: p1 :: rest ∧
          p0 < winnerThreshold ∧ winnerThreshold ≤ p1))) ∧
    (∀ (unsettled : List TradeRec) (nowMs : Int) (db : Db) (first : TradeRec),
      unsettled.find? (fun t => t.marketTicker = slug) = some first →
      resolveForSlug env slug first.conditionId = none →
      settleSlug env unsettled nowMs db slug = db) := by
  refine ⟨?_, ?_, ?_, ?_, ?_, ?_⟩
  · intro o hcid hlook
    simp [resolveForSlug, hcid, hlook]
  · rintro (h | h)
    · simp [resolveForSlug, h]
    · by_cases hcid : cid = ""
      · simp [resolveForSlug, hcid]
      · simp [resolveForSlug, hcid, h]
  · intro a ws we hw hlt
    simp [resolveOutcomeViaRtds, hw, hlt]
  · intro a ws we startPrice endPrice hw hge hps hpe
    simp [resolveOutcomeViaRtds, hw, hge, hps, hpe]
  · intro m o h
    cases hc : m.closed with
    | false => simp [checkMarketResolution, hc] at h
    | true =>
      refine ⟨rfl, ?_⟩
      cases hop : m.outcomePrices with
      | nil => simp [checkMarketResolution, hc, hop] at h
      | cons p0 tail =>
        cases tail with
        | nil => simp [checkMarketResolution, hc, hop] at h
        | cons p1 rest =>
          by_cases h0 : winnerThreshold ≤ p0
          · have ho : o = "YES" := by
              simp [checkMarketResolution, hc, hop, h0] at h
              exact h.symm
            exact Or.inl ⟨ho, p0, p1, rest, rfl, h0⟩
          · by_cases h1 : winnerThreshold ≤ p1
            · have ho : o = "NO" := by
                simp [checkMarketResolution, hc, hop, h0, h1] at h
                exact h.symm
              exact Or.inr ⟨ho, p0, p1, rest, rfl, not_le.mp h0, h1⟩
            · exfalso
              simp [checkMarketResolution, hc, hop, h0, h1] at h
  · intro unsettled nowMs db first hfind hres
    simp only [settleSlug, hfind, hres]

/-- C10: every trade created from a `bet_both` signal is recorded with side
`ARBITRAGE` and no venue order id; at settlement `calculate_trade_pnl`
returns exactly 0 for it whatever the market outcome, and since
`settle_trades` marks a trade `won` only when its profit is strictly
positive, such a trade is always settled with status `lost` and zero
profit. -/
theorem arbitrage_trade_settles_lost_zero (tradeId : Nat)
    (market : Executor.MarketDict) (signal : Executor.SignalDict)
    (hact : signal.action = "bet_both") :
    (Executor.executeTradePaper tradeId market signal).side = some "ARBITRAGE" ∧
    (Executor.executeTradePaper tradeId market signal).polymarketOrderId = none ∧
    ∀ outcome,
      calculateTradePnl (Executor.executeTradePaper tradeId market signal) outcome
        = 0 ∧
      settleStatus
        (calculateTradePnl (Executor.executeTradePaper tradeId market signal) outcome)
        = "lost" := by
  have hside : (Executor.executeTradePaper tradeId market signal).side
      = some "ARBITRAGE" := by
    simp [Executor.executeTradePaper, hact]
  have hoid : (Executor.executeTradePaper tradeId market signal).polymarketOrderId
      = none := by
    simp [Executor.executeTradePaper, hact]
  have hpnl : ∀ outcome,
      calculateTradePnl (Executor.executeTradePaper tradeId market signal) outcome
        = 0 := by
    intro outcome
    have hbs : betSideOf (Executor.executeTradePaper tradeId market signal)
        = "ARBITRAGE" := by
      rw [betSideOf, hside]
      simp [pyOrStr]
    unfold calculateTradePnl
    rw [hbs]
    split_ifs <;> simp_all
  refine ⟨hside, hoid, fun outcome => ⟨hpnl outcome, ?_⟩⟩
  rw [hpnl outcome]
  norm_num [settleStatus]

/-- Concrete `bet_both` signal and market for the C10 witness. -/
def signalW10 : Executor.SignalDict :=
  { action := "bet_both", strategy := some "signal_engine",
    price := none, yesPrice := some 0.40, noPrice := some 0.55,
    size := some 10, expectedProfit := some 0.3, confidence := some 0.95,
    reason := some "arb" }

/-- Concrete market dict for the C10 witness. -/
def marketW10 : Executor.MarketDict :=
  { slug := some "btc-updown-15m-0", question := some "up?",
    conditionId := some "0xc", yesPrice := some 0.5, noPrice := some 0.5 }

/-! ### Exactly-once settlement (C3) -/

lemma foldl_preserve {α β : Type} (P : β → Prop) (f : β → α → β)
    (h : ∀ acc x, P acc → P (f acc x)) :
    ∀ (l : List α) (init : β), P init → P (l.foldl f init) := by
  intro l
  induction l with
  | nil => intro init hP; exact hP
  | cons x xs ih => intro init hP; exact ih (f init x) (h init x hP)

lemma settleTradeStep_outcomes (env : SettleEnv) (cid outcome : String)
    (nowMs : Int) (acc : Db) (t : TradeRec) :
    (settleTradeStep env cid outcome nowMs acc t).outcomes = acc.outcomes := by
  unfold settleTradeStep
  split_ifs <;> rfl

lemma foldl_settleTradeStep_outcomes (env : SettleEnv) (cid outcome : String)
    (nowMs : Int) :
    ∀ (l : List TradeRec) (acc : Db),
      (l.foldl (settleTradeStep env cid outcome nowMs) acc).outcomes
        = acc.outcomes := by
  intro l
  induction l with
  | nil => intro acc; rfl
  | cons t ts ih =>
    intro acc
    rw [List.foldl_cons, ih, settleTradeStep_outcomes]

/-- One per-slug pass either leaves the outcome table unchanged or — only
when the slug has no record yet — appends exactly one record for the slug. -/
lemma settleSlug_outcomes (env : SettleEnv) (u : List TradeRec) (nowMs : Int)
    (db : Db) (slug : String) :
    (settleSlug env u nowMs db slug).outcomes = db.outcomes ∨
    (∃ cid outcome, getMarketOutcomeBySlug db slug = none ∧
      (settleSlug env u nowMs db slug).outcomes
        = db.outcomes ++ [⟨slug, cid, outcome, nowMs⟩]) := by
  cases hf : u.find? (fun t => t.marketTicker = slug) with
  | none => left; simp [settleSlug, hf]
  | some first =>
    cases hr : resolveForSlug env slug first.conditionId with
    | none => left; simp [settleSlug, hf, hr]
    | some outcome =>
      cases hg : getMarketOutcomeBySlug db slug with
      | some r =>
        left
        simp [settleSlug, hf, hr, hg, foldl_settleTradeStep_outcomes]
      | none =>
        right
        refine ⟨first.conditionId, outcome, rfl, ?_⟩
        simp [settleSlug, hf, hr, hg, foldl_settleTradeStep_outcomes,
          insertMarketOutcome]

lemma settleSlug_outcomes_extend (env : SettleEnv) (u : List TradeRec)
    (nowMs : Int) (db : Db) (slug : String) :
    ∃ tl, (settleSlug env u nowMs db slug).outcomes = db.outcomes ++ tl := by
  rcases settleSlug_outcomes env u nowMs db slug with h | ⟨cid, o, _, h⟩
  · exact ⟨[], by rw [h, List.append_nil]⟩
  · exact ⟨_, h⟩

/-- A settlement run only appends to the outcome table: existing settlement
records are never overwritten or removed. -/
lemma settleTrades_outcomes_extend (env : SettleEnv) (nowMs : Int) (db : Db) :
    ∃ tl, (settleTrades env nowMs db).outcomes = db.outcomes ++ tl := by
  unfold settleTrades
  cases hu : listUnsettledTrades db with
  | nil => exact ⟨[], by simp⟩
  | cons t ts =>
    refine foldl_preserve
      (fun acc => ∃ tl, acc.outcomes = db.outcomes ++ tl) _ ?_ _ db
      ⟨[], by simp⟩
    rintro acc slug ⟨tl, htl⟩
    rcases settleSlug_outcomes_extend env (t :: ts) nowMs acc slug with ⟨tl2, h2⟩
    exact ⟨tl ++ tl2, by rw [h2, htl, List.append_assoc]⟩

lemma find?_append_left {α : Type} (p : α → Bool) (l l' : List α)
    (h : (l.find? p).isSome) : ((l ++ l').find? p).isSome := by
  induction l with
  | nil => simp at h
  | cons x xs ih =>
    by_cases hx : p x
    · simp [List.find?_cons, hx]
    · simp only [List.cons_append, List.find?_cons, hx] at h ⊢
      exact ih h

/-- A settlement run adds no record for a slug that already has one. -/
lemma settleTrades_no_second_record (env : SettleEnv) (nowMs : Int) (db : Db)
    (s : String)
    (hex : (db.outcomes.find? (fun r => r.slug = s)).isSome) :
    (settleTrades env nowMs db).outcomes.filter (fun r => r.slug = s)
      = db.outcomes.filter (fun r => r.slug = s) := by
  unfold settleTrades
  cases hu : listUnsettledTrades db with
  | nil => rfl
  | cons t ts =>
    have hstep : ∀ (acc : Db) (slug : String),
        (acc.outcomes.filter (fun r => r.slug = s)
            = db.outcomes.filter (fun r => r.slug = s) ∧
          (acc.outcomes.find? (fun r => r.slug = s)).isSome) →
        ((settleSlug env (t :: ts) nowMs acc slug).outcomes.filter
            (fun r => r.slug = s)
            = db.outcomes.filter (fun r => r.slug = s) ∧
          ((settleSlug env (t :: ts) nowMs acc slug).outcomes.find?
            (fun r => r.slug = s)).isSome) := by
      rintro acc slug ⟨hfil, hsome⟩
      rcases settleSlug_outcomes env (t :: ts) nowMs acc slug with h | ⟨cid, o, hnone, h⟩
      · rw [h]
        exact ⟨hfil, hsome⟩
      · have hne : slug ≠ s := by
          intro hss
          subst hss
          rw [getMarketOutcomeBySlug] at hnone
          rw [hnone] at hsome
          cases hsome
        rw [h, List.filter_append]
        constructor
        · simp [hne, hfil]
        · exact find?_append_left _ _ _ hsome
    exact (foldl_preserve _ (settleSlug env (t :: ts) nowMs) hstep _ db
      ⟨rfl, hex⟩).1

/-- Positional agreement between the trade table before and after a run:
same length, ids unchanged, and any row that already carried an outcome is
untouched (only rows without a recorded outcome are updated). -/
def TradesAgree (base cur : List TradeRec) : Prop :=
  cur.length = base.length ∧
  ∀ (i : Nat) (h1 : i < cur.length) (h2 : i < base.length),
    (cur.get ⟨i, h1⟩).id = (base.get ⟨i, h2⟩).id ∧
    ((base.get ⟨i, h2⟩).marketOutcome.isSome →
      cur.get ⟨i, h1⟩ = base.get ⟨i, h2⟩)

lemma tradesAgree_refl (l : List TradeRec) : TradesAgree l l :=
  ⟨rfl, fun _ _ _ => ⟨rfl, fun _ => rfl⟩⟩

lemma updTradeFun_id (tradeId : Nat) (o : String) (pr : ℚ) (st : String)
    (ms : Int) (t : TradeRec) :
    (updTradeFun tradeId o pr st ms t).id = t.id := by
  unfold updTradeFun
  split_ifs <;> rfl

lemma tradesAgree_update (base cur : List TradeRec)
    (hnodup : (base.map (fun t => t.id)).Nodup)
    (h : TradesAgree base cur)
    (t : TradeRec) (ht : t ∈ base) (hto : t.marketOutcome = none)
    (o : String) (pr : ℚ) (st : String) (ms : Int) :
    TradesAgree base (cur.map (updTradeFun t.id o pr st ms)) := by
  obtain ⟨hlen, hget⟩ := h
  refine ⟨by rw [List.length_map, hlen], ?_⟩
  intro i h1 h2
  have h1' : i < cur.length := by
    rw [List.length_map] at h1
    exact h1
  have hmap : (cur.map (updTradeFun t.id o pr st ms)).get ⟨i, h1⟩
      = updTradeFun t.id o pr st ms (cur.get ⟨i, h1'⟩) :=
    List.getElem_map _
  obtain ⟨hid, hfix⟩ := hget i h1' h2
  constructor
  · rw [hmap, updTradeFun_id, hid]
  · intro hsome
    have hcur : cur.get ⟨i, h1'⟩ = base.get ⟨i, h2⟩ := hfix hsome
    rw [hmap, hcur]
    have hne : (base.get ⟨i, h2⟩).id ≠ t.id := by
      intro hidq
      have : base.get ⟨i, h2⟩ = t :=
        List.inj_on_of_nodup_map hnodup (base.get_mem i h2) ht hidq
      rw [this, hto] at hsome
      cases hsome
    unfold updTradeFun
    rw [if_neg hne]

lemma tradesAgree_settleTradeStep (base : List TradeRec) (env : SettleEnv)
    (cid outcome : String) (nowMs : Int)
    (hnodup : (base.map (fun t => t.id)).Nodup)
    (acc : Db) (t : TradeRec) (ht : t ∈ base)
    (h : TradesAgree base acc.trades) :
    TradesAgree base ((settleTradeStep env cid outcome nowMs acc t).trades) := by
  unfold settleTradeStep
  by_cases hs : t.marketOutcome.isSome
  · rw [if_pos hs]
    exact h
  · rw [if_neg hs]
    have hto : t.marketOutcome = none := Option.not_isSome_iff_eq_none.mp hs
    exact tradesAgree_update base acc.trades hnodup h t ht hto _ _ _ _

lemma tradesAgree_foldl_steps (base : List TradeRec) (env : SettleEnv)
    (cid outcome : String) (nowMs : Int)
    (hnodup : (base.map (fun t => t.id)).Nodup) :
    ∀ (l : List TradeRec) (acc : Db), (∀ t ∈ l, t ∈ base) →
      TradesAgree base acc.trades →
      TradesAgree base
        ((l.foldl (settleTradeStep env cid outcome nowMs) acc).trades) := by
  intro l
  induction l with
  | nil => intro acc _ h; exact h
  | cons t ts ih =>
    intro acc hmem h
    rw [List.foldl_cons]
    exact ih _ (fun x hx => hmem x (List.mem_cons_of_mem t hx))
      (tradesAgree_settleTradeStep base env cid outcome nowMs hnodup acc t
        (hmem t (List.mem_cons_self t ts)) h)

lemma tradesAgree_settleSlug (base : List TradeRec) (env : SettleEnv)
    (u : List TradeRec) (nowMs : Int)
    (hnodup : (base.map (fun t => t.id)).Nodup)
    (hu : ∀ t ∈ u, t ∈ base) (acc : Db) (slug : String)
    (h : TradesAgree base acc.trades) :
    TradesAgree base ((settleSlug env u nowMs acc slug).trades) := by
  cases hf : u.find? (fun t => t.marketTicker = slug) with
  | none => simpa [settleSlug, hf] using h
  | some first =>
    cases hr : resolveForSlug env slug first.conditionId with
    | none => simpa [settleSlug, hf, hr] using h
    | some outcome =>
      have hmem : ∀ t ∈ u.filter (fun t => t.marketTicker = slug), t ∈ base :=
        fun t htf => hu t (List.mem_of_mem_filter htf)
      cases hg : getMarketOutcomeBySlug acc slug with
      | some r =>
        have hfold := tradesAgree_foldl_steps base env first.conditionId outcome
          nowMs hnodup (u.filter (fun t => t.marketTicker = slug)) acc hmem h
        simpa [settleSlug, hf, hr, hg] using hfold
      | none =>
        have hfold := tradesAgree_foldl_steps base env first.conditionId outcome
          nowMs hnodup (u.filter (fun t => t.marketTicker = slug))
          (insertMarketOutcome acc ⟨slug, first.conditionId, outcome, nowMs⟩)
          hmem h
        simpa [settleSlug, hf, hr, hg] using hfold

/-- A settlement run never re-marks a trade that already carries an outcome:
the trade table keeps its length and ids, and rows with a recorded outcome
are bit-for-bit unchanged. -/
lemma tradesAgree_settleTrades (env : SettleEnv) (nowMs : Int) (db : Db)
    (hnodup : (db.trades.map (fun t => t.id)).Nodup) :
    TradesAgree db.trades ((settleTrades env nowMs db).trades) := by
  unfold settleTrades
  cases hu : listUnsettledTrades db with
  | nil => exact tradesAgree_refl _
  | cons t ts =>
    have hu' : ∀ x ∈ (t :: ts), x ∈ db.trades := by
      intro x hx
      rw [← hu] at hx
      exact List.mem_of_mem_filter hx
    exact foldl_preserve (fun acc => TradesAgree db.trades acc.trades)
      (settleSlug env (t :: ts) nowMs)
      (fun acc slug h =>
        tradesAgree_settleSlug db.trades env (t :: ts) nowMs hnodup hu' acc
          slug h)
      _ db (tradesAgree_refl _)

lemma tradesAgree_map_id (base cur : List TradeRec) (h : TradesAgree base cur) :
    cur.map (fun t => t.id) = base.map (fun t => t.id) := by
  obtain ⟨hlen, hget⟩ := h
  apply List.ext_get
  · rw [List.length_map, List.length_map, hlen]
  · intro n h1 h2
    rw [List.length_map] at h1 h2
    simp only [List.get_eq_getElem, List.getElem_map]
    exact (hget n h1 h2).1

/-- C3: settlement is exactly-once.  With distinct trade ids, after a first
settlement run (`db1 := settleTrades env1 now1 db`), a second run (i) only
appends to the outcome table — existing settlement records are never
overwritten — (ii) creates no second record for any slug that already has
one, and (iii) never re-marks a trade that already carries an outcome: the
trade table keeps length and ids and every settled row is unchanged, so only
trades with no recorded outcome are ever updated. -/
theorem settleTrades_exactly_once (env1 env2 : SettleEnv) (now1 now2 : Int)
    (db : Db)
    (hnodup : (db.trades.map (fun t => t.id)).Nodup) :
    (∃ tl, (settleTrades env2 now2 (settleTrades env1 now1 db)).outcomes
        = (settleTrades env1 now1 db).outcomes ++ tl) ∧
    (∀ s, ((settleTrades env1 now1 db).outcomes.find?
        (fun r => r.slug = s)).isSome →
      (settleTrades env2 now2 (settleTrades env1 now1 db)).outcomes.filter
          (fun r => r.slug = s)
        = (settleTrades env1 now1 db).outcomes.filter (fun r => r.slug = s)) ∧
    TradesAgree (settleTrades env1 now1 db).trades
      ((settleTrades env2 now2 (settleTrades env1 now1 db)).trades) := by
  have hnodup1 : ((settleTrades env1 now1 db).trades.map
      (fun t => t.id)).Nodup := by
    rw [tradesAgree_map_id _ _ (tradesAgree_settleTrades env1 now1 db hnodup)]
    exact hnodup
  exact ⟨settleTrades_outcomes_extend env2 now2 _,
    fun s hex => settleTrades_no_second_record env2 now2 _ s hex,
    tradesAgree_settleTrades env2 now2 _ hnodup1⟩

/-- Trivial environment for the C3 witness: no notification, no prices, no
REST response. -/
def envW3 : SettleEnv :=
  { clobResolved := [], nowSec := 0, priceAt := fun _ _ => none,
    gammaResp := fun _ => none, clobPnl := fun _ _ _ => none }

/-- Concrete ledger for the C3 witness. -/
def dbW3 : Db :=
  { trades := [tradeW4], outcomes := [] }

/-- Witness for C3 at a concrete one-trade ledger. -/
theorem settleTrades_exactly_once_witness :
    (∃ tl, (settleTrades envW3 0 (settleTrades envW3 0 dbW3)).outcomes
        = (settleTrades envW3 0 dbW3).outcomes ++ tl) ∧
    (∀ s, ((settleTrades envW3 0 dbW3).outcomes.find?
        (fun r => r.slug = s)).isSome →
      (settleTrades envW3 0 (settleTrades envW3 0 dbW3)).outcomes.filter
          (fun r => r.slug = s)
        = (settleTrades envW3 0 dbW3).outcomes.filter (fun r => r.slug = s)) ∧
    TradesAgree (settleTrades envW3 0 dbW3).trades
      ((settleTrades envW3 0 (settleTrades envW3 0 dbW3)).trades) :=
  settleTrades_exactly_once envW3 envW3 0 0 dbW3 (by decide)

/-- Witness for C10 at a concrete arbitrage trade. -/
theorem arbitrage_trade_settles_lost_zero_witness :
    (Executor.executeTradePaper 7 marketW10 signalW10).side = some "ARBITRAGE" ∧
    (Executor.executeTradePaper 7 marketW10 signalW10).polymarketOrderId = none ∧
    ∀ outcome,
      calculateTradePnl (Executor.executeTradePaper 7 marketW10 signalW10) outcome
        = 0 ∧
      settleStatus
        (calculateTradePnl (Executor.executeTradePaper 7 marketW10 signalW10) outcome)
        = "lost" :=
  arbitrage_trade_settles_lost_zero 7 marketW10 signalW10 rfl

end Settlement

end PolymarketBot
